import Mathlib

/-!
QT Racing Arena: the chat server's protocol engine and quiz scheduler

A shallow embedding of `Source/QtSimpleChatServer/chatserver.cpp`.

* A `ServerWorker *` is a natural number (the identity of the session object).
* `m_clients` is the list of registered workers in insertion order; the two
  per-worker fields the server reads and writes (`userName`, `lastAnswer`)
  are maps from workers to strings.
* Every `sendJson(destination, message)` the server performs is recorded, in
  program order, as a pair in an `Outbox`.
* The outcomes of `QRandomGenerator::generate()` are inputs of the quiz tick.
* Log signals (`emit logMessage`) carry no state and are left out.
-/

namespace QtSimpleChatServer

/-! ## Qt strings -/

/-- QChar::isSpace: the ASCII white space characters, U+0085, U+00A0 and the
Unicode separators (categories Zs, Zl, Zp). -/
def isSpace (c : Char) : Bool :=
  let n := c.toNat
  n == 0x20 || (0x09 ≤ n && n ≤ 0x0d) || n == 0x85 || n == 0xa0 || n == 0x1680
    || (0x2000 ≤ n && n ≤ 0x200a) || n == 0x2028 || n == 0x2029 || n == 0x202f
    || n == 0x205f || n == 0x3000

/-- QString::trimmed on the characters: white space removed from both ends. -/
def trimmedChars (l : List Char) : List Char :=
  ((l.dropWhile isSpace).reverse.dropWhile isSpace).reverse

/-- QString::trimmed. -/
def trimmed (s : String) : String := ⟨trimmedChars s.data⟩

/-- The copying loop of QString::simplified: leading white space is skipped
(`inSpace` starts true) and every later run of white space is written as one
U+0020. -/
def collapseSpaces : Bool → List Char → List Char
  | _, [] => []
  | inSpace, c :: cs =>
    if isSpace c then
      if inSpace then collapseSpaces true cs else ' ' :: collapseSpaces true cs
    else c :: collapseSpaces false cs

/-- QString::simplified on the characters: after the copying loop a trailing
U+0020 is removed. -/
def simplifiedChars (l : List Char) : List Char :=
  let out := collapseSpaces true l
  if out.getLast? = some ' ' then out.dropLast else out

/-- QString::simplified. -/
def simplified (s : String) : String := ⟨simplifiedChars s.data⟩

/-- What the server takes from the platform and from `serverworker.cpp`:
the Unicode case folding behind `Qt::CaseInsensitive`, and the value a newly
constructed worker has in `lastAnswer`. -/
structure Env where
  foldCase : Char → Char
  initialLastAnswer : String

/-- The test `a.compare(b, Qt::CaseInsensitive) == 0`: the two strings agree
character by character after case folding. -/
def equalsCI (env : Env) (a b : String) : Bool :=
  a.data.map env.foldCase == b.data.map env.foldCase

/-- QString::number(int): the decimal representation. -/
def number : Int → String
  | Int.ofNat m => Nat.repr m
  | Int.negSucc m => "-" ++ Nat.repr (m + 1)

/-! ## JSON -/

/-- A QJsonValue. The server only asks for the kind of a value and for its
string, so numbers, arrays and objects carry no payload. -/
inductive QJsonValue where
  | null
  | bool (b : Bool)
  | double
  | string (s : String)
  | array
  | object
  | undefined
  deriving DecidableEq

/-- QJsonValue::isNull. -/
def QJsonValue.isNull : QJsonValue → Bool
  | .null => true
  | _ => false

/-- QJsonValue::isString. -/
def QJsonValue.isString : QJsonValue → Bool
  | .string _ => true
  | _ => false

/-- QJsonValue::toString: the string of a string value, the empty string for
every other kind. -/
def QJsonValue.toString : QJsonValue → String
  | .string s => s
  | _ => ""

/-- A QJsonObject, as its entries in order of first insertion. -/
abbrev QJsonObject := List (String × QJsonValue)

/-- QJsonObject::value(key): the value stored under the key, Undefined when
the key is absent. -/
def QJsonObject.value (o : QJsonObject) (key : String) : QJsonValue :=
  match o.lookup key with
  | some v => v
  | none => QJsonValue.undefined

/-- The assignment `object[key] = v`: overwrites the entry of an existing key,
adds the entry otherwise. -/
def QJsonObject.set : QJsonObject → String → QJsonValue → QJsonObject
  | [], key, v => [(key, v)]
  | (k, w) :: rest, key, v =>
    if k = key then (k, v) :: rest else (k, w) :: QJsonObject.set rest key v

/-! ## The server -/

/-- The state of the ChatServer object together with the fields of the
workers it points to. -/
structure ChatServer where
  /-- The member m_clients, a QVector of worker pointers. -/
  m_clients : List Nat
  /-- The field ServerWorker::userName of each worker. -/
  userName : Nat → String
  /-- The field ServerWorker::getLastAnswer of each worker. -/
  lastAnswer : Nat → String
  /-- The member m_answer. -/
  m_answer : String

/-- The messages handed to sendJson, oldest first, each with its destination. -/
abbrev Outbox := List (Nat × QJsonObject)

/-- The messages one worker is sent, oldest first. -/
def inbox (out : Outbox) (w : Nat) : List QJsonObject :=
  (out.filter (fun p => p.1 == w)).map (fun p => p.2)

/-- ChatServer::sendJson. -/
def sendJson (destination : Nat) (message : QJsonObject) : Outbox :=
  [(destination, message)]

/-- ChatServer::broadcast: walks m_clients in order and sends to every entry
that is not the excluded worker (`none` is the null pointer). -/
def broadcast : List Nat → QJsonObject → Option Nat → Outbox
  | [], _, _ => []
  | worker :: rest, message, exclude =>
    if some worker = exclude then broadcast rest message exclude
    else sendJson worker message ++ broadcast rest message exclude

/-- ChatServer::incomingConnection: a new worker is constructed; when
setSocketDescriptor fails it is discarded, otherwise it is appended to
m_clients. The constructor of ServerWorker is not among the sources: the new
worker has an empty userName, as the specification states, and the initial
lastAnswer of the environment. -/
def incomingConnection (env : Env) (s : ChatServer) (worker : Nat) (socketOk : Bool) :
    ChatServer × Outbox :=
  if !socketOk then (s, [])
  else
    ({ s with
        m_clients := s.m_clients ++ [worker]
        userName := Function.update s.userName worker ""
        lastAnswer := Function.update s.lastAnswer worker env.initialLastAnswer }, [])

/-- The empty QJsonObject. -/
def QJsonObject.empty : QJsonObject := []

/-- The reply of the server to a login whose name is taken. -/
def loginFailureMessage : QJsonObject :=
  QJsonObject.set
    (QJsonObject.set (QJsonObject.set QJsonObject.empty "type" (.string "login"))
      "success" (.bool false))
    "reason" (.string "duplicate username")

/-- The reply of the server to an accepted login. -/
def loginSuccessMessage : QJsonObject :=
  QJsonObject.set (QJsonObject.set QJsonObject.empty "type" (.string "login"))
    "success" (.bool true)

/-- The announcement of a newly logged in user. -/
def newUserMessage (userName : String) : QJsonObject :=
  QJsonObject.set (QJsonObject.set QJsonObject.empty "type" (.string "newuser"))
    "username" (.string userName)

/-- The relayed chat message. -/
def chatMessage (text sender : String) : QJsonObject :=
  QJsonObject.set
    (QJsonObject.set (QJsonObject.set QJsonObject.empty "type" (.string "message"))
      "text" (.string text))
    "sender" (.string sender)

/-- The departure notice. -/
def userDisconnectedMessage (userName : String) : QJsonObject :=
  QJsonObject.set (QJsonObject.set QJsonObject.empty "type" (.string "userdisconnected"))
    "username" (.string userName)

/-- The loop of jsonFromLoggedOut over m_clients: true when some entry other
than the sender has a userName equal to the new name, case-insensitively. -/
def nameTaken (env : Env) (userName : Nat → String) (sender : Nat) (newUserName : String) :
    List Nat → Bool
  | [] => false
  | worker :: rest =>
    if worker = sender then nameTaken env userName sender newUserName rest
    else if equalsCI env (userName worker) newUserName then true
    else nameTaken env userName sender newUserName rest

/-- ChatServer::jsonFromLoggedOut. -/
def jsonFromLoggedOut (env : Env) (s : ChatServer) (sender : Nat) (docObj : QJsonObject) :
    ChatServer × Outbox :=
  let typeVal := docObj.value "type"
  if typeVal.isNull || !typeVal.isString then (s, [])
  else if !equalsCI env typeVal.toString "login" then (s, [])
  else
    let usernameVal := docObj.value "username"
    if usernameVal.isNull || !usernameVal.isString then (s, [])
    else
      let newUserName := simplified usernameVal.toString
      if newUserName = "" then (s, [])
      else if nameTaken env s.userName sender newUserName s.m_clients then
        (s, sendJson sender loginFailureMessage)
      else
        ({ s with userName := Function.update s.userName sender newUserName },
          sendJson sender loginSuccessMessage
            ++ broadcast s.m_clients (newUserMessage newUserName) (some sender))

/-- ChatServer::jsonFromLoggedIn. -/
def jsonFromLoggedIn (env : Env) (s : ChatServer) (sender : Nat) (docObj : QJsonObject) :
    ChatServer × Outbox :=
  let typeVal := docObj.value "type"
  if typeVal.isNull || !typeVal.isString then (s, [])
  else if equalsCI env typeVal.toString "message" then
    let textVal := docObj.value "text"
    if textVal.isNull || !textVal.isString then (s, [])
    else
      let text := trimmed textVal.toString
      if text = "" then (s, [])
      else (s, broadcast s.m_clients (chatMessage text (s.userName sender)) (some sender))
  else if equalsCI env typeVal.toString "answer" then
    let answerVal := docObj.value "answer"
    ({ s with lastAnswer := Function.update s.lastAnswer sender (trimmed answerVal.toString) }, [])
  else (s, [])

/-- ChatServer::jsonReceived. -/
def jsonReceived (env : Env) (s : ChatServer) (sender : Nat) (doc : QJsonObject) :
    ChatServer × Outbox :=
  if s.userName sender = "" then jsonFromLoggedOut env s sender doc
  else jsonFromLoggedIn env s sender doc

/-- ChatServer::userDisconnected. -/
def userDisconnected (s : ChatServer) (sender : Nat) : ChatServer × Outbox :=
  let s1 := { s with m_clients := s.m_clients.filter (fun w => w != sender) }
  let userName := s.userName sender
  if userName ≠ "" then (s1, broadcast s1.m_clients (userDisconnectedMessage userName) none)
  else (s1, [])

/-- ChatServer::userError: the error is logged and nothing else happens. -/
def userError (s : ChatServer) (_sender : Nat) : ChatServer × Outbox := (s, [])

/-! ## The quiz -/

/-- A C++ int produced by an arithmetic operation: the exact result reduced to
the 32-bit two's complement range. -/
def wrapInt32 (x : Int) : Int := (x + 2147483648) % 4294967296 - 2147483648

/-- QRandomGenerator::bounded(quint32 highest) on the 32-bit word `g` that
generate() returned: the word scaled into the range from 0 (inclusive) to
highest (exclusive). -/
def boundedU32 (highest g : Nat) : Nat := (g % 4294967296 * highest) / 4294967296

/-- QRandomGenerator::bounded(int highest): a value from 0 (inclusive) to
highest (exclusive). -/
def boundedInt (highest : Int) (g : Nat) : Int := Int.ofNat (boundedU32 highest.toNat g)

/-- QRandomGenerator::bounded(int lowest, int highest), which is
`bounded(highest - lowest) + lowest`: a value from lowest (inclusive) to
highest (exclusive). -/
def bounded (lowest highest : Int) (g : Nat) : Int :=
  wrapInt32 (boundedInt (wrapInt32 (highest - lowest)) g + lowest)

/-- The array `arr` of getQuestion after the fifth value is computed, from
the words of the four generate() calls. -/
def roundValues (g0 g1 g2 g3 : Nat) : List Int :=
  let a := bounded 1 20 g0
  let b := bounded 1 20 g1
  let c := bounded 1 20 g2
  let d := bounded 1 20 g3
  [a, b, c, d, wrapInt32 (wrapInt32 (a + b) + wrapInt32 (c * d))]

/-- The index `mask` of getQuestion, from the word of the fifth generate()
call. -/
def maskIndex (g4 : Nat) : Nat := (boundedInt 5 g4).toNat

/-- The array operArr of getQuestion. -/
def operArr : List String := ["+", "+", "*", "="]

/-- The text of one slot: a question mark for the value -1, the decimal
number otherwise. -/
def slotText (v : Int) : String := if v = -1 then "?" else number v

/-- The loop of getQuestion over the slots `i, i+1, ..., 3`, appending to the
question built so far. -/
def questionLoop (arr : List Int) : List Nat → String → String
  | [], question => question
  | i :: rest, question =>
    questionLoop arr rest
      (question ++ (slotText (arr.getD i 0) ++ " " ++ operArr.getD i "" ++ " "))

/-- The part of getQuestion after the draws: the new m_answer and the
question, from the array and the mask index. -/
def maskAndRender (arr : List Int) (mask : Nat) : String × String :=
  let m_answer := number (arr.getD mask 0)
  let arr1 := arr.set mask (-1)
  let question := questionLoop arr1 [0, 1, 2, 3] ""
  (m_answer, question ++ slotText (arr1.getD 4 0))

/-- ChatServer::getQuestion on the words of its five generate() calls: the
new m_answer and the returned question. -/
def getQuestion (g0 g1 g2 g3 g4 : Nat) : String × String :=
  maskAndRender (roundValues g0 g1 g2 g3) (maskIndex g4)

/-- The result message of the grading loop. -/
def resultMessage (result : Bool) : QJsonObject :=
  QJsonObject.set (QJsonObject.set QJsonObject.empty "type" (.string "result"))
    "result" (.bool result)

/-- The grading loop of automaticSendQuestion: the one resultMessage object
has its result entry overwritten for each worker and is then sent to it. -/
def gradeLoop (lastAnswer : Nat → String) (m_answer : String) :
    List Nat → QJsonObject → Outbox
  | [], _ => []
  | worker :: rest, message =>
    let message1 :=
      if lastAnswer worker = m_answer then QJsonObject.set message "result" (.bool true)
      else QJsonObject.set message "result" (.bool false)
    sendJson worker message1 ++ gradeLoop lastAnswer m_answer rest message1

/-- The question message of automaticSendQuestion. -/
def questionMessage (question : String) : QJsonObject :=
  QJsonObject.set (QJsonObject.set QJsonObject.empty "type" (.string "questionarrive"))
    "question" (.string question)

/-- ChatServer::automaticSendQuestion on the words of the five generate()
calls made by getQuestion. -/
def automaticSendQuestion (s : ChatServer) (g0 g1 g2 g3 g4 : Nat) : ChatServer × Outbox :=
  let graded :=
    if s.m_answer ≠ "NAN" then
      gradeLoop s.lastAnswer s.m_answer s.m_clients
        (QJsonObject.set QJsonObject.empty "type" (.string "result"))
    else []
  let q := getQuestion g0 g1 g2 g3 g4
  ({ s with m_answer := q.1 }, graded ++ broadcast s.m_clients (questionMessage q.2) none)

/-! ## Events and reachable states -/

/-- The slots of the server that the event loop calls. -/
inductive Event where
  | incomingConnection (worker : Nat) (socketOk : Bool)
  | jsonReceived (sender : Nat) (doc : QJsonObject)
  | userDisconnected (sender : Nat)
  | userError (sender : Nat)
  | automaticSendQuestion (g0 g1 g2 g3 g4 : Nat)

/-- The server handles one event: the state after it and what was sent. -/
def step (env : Env) (s : ChatServer) : Event → ChatServer × Outbox
  | .incomingConnection worker socketOk => incomingConnection env s worker socketOk
  | .jsonReceived sender doc => jsonReceived env s sender doc
  | .userDisconnected sender => userDisconnected s sender
  | .userError sender => userError s sender
  | .automaticSendQuestion g0 g1 g2 g3 g4 => automaticSendQuestion s g0 g1 g2 g3 g4

/-- When an event can occur: a new worker is an object that is not
registered, and the signals of a worker are connected from its registration
until its disconnection. The timer can always fire. -/
def Event.enabled (s : ChatServer) : Event → Bool
  | .incomingConnection worker _ => decide (worker ∉ s.m_clients)
  | .jsonReceived sender _ => decide (sender ∈ s.m_clients)
  | .userDisconnected sender => decide (sender ∈ s.m_clients)
  | .userError sender => decide (sender ∈ s.m_clients)
  | .automaticSendQuestion _ _ _ _ _ => true

/-- Modelled from the spec: the server as constructed, declared in
chatserver.h, which is not among the sources. The registry is empty and
m_answer holds the sentinel "NAN" that the first tick tests for. -/
def initialServer (env : Env) : ChatServer where
  m_clients := []
  userName := fun _ => ""
  lastAnswer := fun _ => env.initialLastAnswer
  m_answer := "NAN"

/-- The state after a sequence of events. -/
def runTrace (env : Env) : ChatServer → List Event → ChatServer
  | s, [] => s
  | s, e :: es => runTrace env (step env s e).1 es

/-- Every event of the sequence can occur in the state it is handled in. -/
def validTrace (env : Env) : ChatServer → List Event → Bool
  | _, [] => true
  | s, e :: es => e.enabled s && validTrace env (step env s e).1 es

/-- The states the server can be in: those the event loop leads to from the
constructed server. -/
inductive Reachable (env : Env) : ChatServer → Prop
  | init : Reachable env (initialServer env)
  | step (s : ChatServer) (e : Event) :
      Reachable env s → e.enabled s = true → Reachable env (step env s e).1

/-- An environment for evaluating examples: ASCII case folding, and workers
constructed with an empty lastAnswer. -/
def asciiEnv : Env where
  foldCase := Char.toLower
  initialLastAnswer := ""

/-- No two distinct registered workers have non-empty userNames that are
equal case-insensitively. -/
def UniqueNames (env : Env) (s : ChatServer) : Prop :=
  ∀ w1 ∈ s.m_clients, ∀ w2 ∈ s.m_clients, w1 ≠ w2 →
    s.userName w1 ≠ "" → s.userName w2 ≠ "" →
      equalsCI env (s.userName w1) (s.userName w2) = false

/-- A document is an answer message: its type is a string that equals
"answer" case-insensitively. -/
def isAnswerMessage (env : Env) (doc : QJsonObject) : Bool :=
  (doc.value "type").isString && equalsCI env (doc.value "type").toString "answer"

/-- An event that is neither a quiz tick, nor an answer message from worker
`w`, nor the construction of `w`. -/
def Event.leavesAnswerOf (env : Env) (w : Nat) : Event → Bool
  | .incomingConnection worker _ => worker != w
  | .jsonReceived sender doc => !(sender == w && isAnswerMessage env doc)
  | .userDisconnected _ => true
  | .userError _ => true
  | .automaticSendQuestion _ _ _ _ _ => false

/-- A login request as a client sends it. -/
def loginDoc (username : String) : QJsonObject :=
  [("type", QJsonValue.string "login"), ("username", QJsonValue.string username)]

/-- A chat message as a client sends it. -/
def messageDoc (text : String) : QJsonObject :=
  [("type", QJsonValue.string "message"), ("text", QJsonValue.string text)]

/-- A quiz answer as a client sends it. -/
def answerDoc (answer : String) : QJsonObject :=
  [("type", QJsonValue.string "answer"), ("answer", QJsonValue.string answer)]

/-- Two clients connect and log in as "Alice" and "Bob". -/
def aliceAndBob : List Event :=
  [Event.incomingConnection 1 true, Event.incomingConnection 2 true,
    Event.jsonReceived 1 (loginDoc "Alice"), Event.jsonReceived 2 (loginDoc "Bob")]

/-- A tick whose draws are a=7, b=1, c=1, d=1 with mask index 0: the question
is "? + 1 + 1 * 1 = 9" and the expected answer is "7". -/
def tickSeven : Event := Event.automaticSendQuestion 1356305462 0 0 0 0

/-- The server after "Alice" (worker 1) and "Bob" (worker 2) have logged in. -/
def lobby : ChatServer := runTrace asciiEnv (initialServer asciiEnv) aliceAndBob

/-- The lobby after a third client, worker 3, has connected. -/
def lobbyWithGuest : ChatServer :=
  runTrace asciiEnv (initialServer asciiEnv) (aliceAndBob ++ [Event.incomingConnection 3 true])

/-- The server after two clients have connected, neither logged in. -/
def twoGuests : ChatServer :=
  runTrace asciiEnv (initialServer asciiEnv)
    [Event.incomingConnection 1 true, Event.incomingConnection 2 true]

/-- The lobby, then the round of tickSeven is issued, Alice answers "7" and
Bob answers "8". -/
def quizAnswered : ChatServer :=
  runTrace asciiEnv (initialServer asciiEnv)
    (aliceAndBob ++ [tickSeven, Event.jsonReceived 1 (answerDoc "7"),
      Event.jsonReceived 2 (answerDoc "8")])

/-- The event is a quiz tick. -/
def Event.isTick : Event → Bool
  | .automaticSendQuestion _ _ _ _ _ => true
  | _ => false

/-- The record of completed logins after one event, given the record before
it: a newly constructed worker has not logged in, and a worker has completed
a login once the server has sent it the success reply to a message of its
own. -/
def loginRecord (env : Env) (s : ChatServer) (done : Nat → Bool) : Event → Nat → Bool
  | .incomingConnection worker true => Function.update done worker false
  | .jsonReceived sender doc =>
    if (sender, loginSuccessMessage) ∈ (jsonReceived env s sender doc).2 then
      Function.update done sender true
    else done
  | _ => done

/-- The workers that have completed a successful login in the course of a
sequence of events. -/
def completedLogin (env : Env) : ChatServer → List Event → (Nat → Bool) → Nat → Bool
  | _, [], done => done
  | s, e :: es, done => completedLogin env (step env s e).1 es (loginRecord env s done e)

/-- The computation of `arr[4]` in getQuestion from the four base integers,
with every operation carried out in 32-bit arithmetic. -/
def roundSum (a b c d : Int) : Int := wrapInt32 (wrapInt32 (a + b) + wrapInt32 (c * d))

/-- The equation a question stands for, on five slot values:
`s0 + s1 + s2 * s3 = s4`. -/
def equationHolds (arr : List Int) : Prop :=
  arr.getD 0 0 + arr.getD 1 0 + arr.getD 2 0 * arr.getD 3 0 = arr.getD 4 0

instance equationHolds.decidable (arr : List Int) : Decidable (equationHolds arr) :=
  inferInstanceAs (Decidable (_ = _))

/-- The number a string of decimal digits stands for. -/
def decimalValue (l : List Char) : Nat :=
  l.foldl (fun acc c => 10 * acc + (c.toNat - 48)) 0

/-- The words of a string: its maximal runs of characters that are not white
space, in order. -/
def wordsOf (l : List Char) : List (List Char) :=
  (l.splitOnP isSpace).filter (fun w => !w.isEmpty)

/-- The words joined again, with one separator character between neighbours. -/
def joinWith (sep : Char) : List (List Char) → List Char
  | [] => []
  | [w] => w
  | w :: ws => w ++ sep :: joinWith sep ws

/-- The output of the copying loop of simplified in terms of the segments
between white space characters: an empty segment met while skipping white
space adds nothing, every other segment but the last is followed by one
U+0020. -/
def joinSegments : Bool → List (List Char) → List Char
  | _, [] => []
  | _, [h] => h
  | inSpace, h :: t =>
    if inSpace && h.isEmpty then joinSegments true t else h ++ ' ' :: joinSegments true t

/-- The text the specification gives slot `i` of a question: a question mark
at the mask index, the decimal number of the true value elsewhere. -/
def maskedSlot (arr : List Int) (mask i : Nat) : String :=
  if i = mask then "?" else number (arr.getD i 0)

/-! ## Properties of the quiz generator -/

theorem boundedU32_lt (h g : Nat) (hp : 0 < h) : boundedU32 h g < h := by
  unfold boundedU32
  apply Nat.div_lt_of_lt_mul
  have : g % 4294967296 < 4294967296 := Nat.mod_lt _ (by norm_num)
  exact Nat.mul_lt_mul_of_pos_right this hp

theorem bounded_one_twenty (g : Nat) : 1 ≤ bounded 1 20 g ∧ bounded 1 20 g ≤ 19 := by
  have h := boundedU32_lt 19 g (by norm_num)
  have e : (wrapInt32 (20 - 1)).toNat = 19 := by decide
  unfold bounded boundedInt
  rw [e]
  unfold wrapInt32
  simp only [Int.ofNat_eq_coe]
  omega

theorem maskIndex_lt (g : Nat) : maskIndex g < 5 := by
  have h := boundedU32_lt 5 g (by norm_num)
  unfold maskIndex boundedInt
  simpa using h

theorem wrapInt32_round (a b c d : Int) (ha : 1 ≤ a ∧ a ≤ 19) (hb : 1 ≤ b ∧ b ≤ 19)
    (hc : 1 ≤ c ∧ c ≤ 19) (hd : 1 ≤ d ∧ d ≤ 19) :
    wrapInt32 (wrapInt32 (a + b) + wrapInt32 (c * d)) = a + b + c * d ∧
      3 ≤ a + b + c * d ∧ a + b + c * d ≤ 399 := by
  have h1 : 1 ≤ c * d := by nlinarith
  have h2 : c * d ≤ 361 := by nlinarith
  generalize c * d = p at *
  unfold wrapInt32
  omega

/-- The array of a round: four draws between 1 and 19 and their exact
combination, which lies between 3 and 399. -/
theorem roundValues_eq (g0 g1 g2 g3 : Nat) :
    ∃ a b c d : Int, roundValues g0 g1 g2 g3 = [a, b, c, d, a + b + c * d] ∧
      (1 ≤ a ∧ a ≤ 19) ∧ (1 ≤ b ∧ b ≤ 19) ∧ (1 ≤ c ∧ c ≤ 19) ∧ (1 ≤ d ∧ d ≤ 19) ∧
      (3 ≤ a + b + c * d ∧ a + b + c * d ≤ 399) := by
  have ha := bounded_one_twenty g0
  have hb := bounded_one_twenty g1
  have hc := bounded_one_twenty g2
  have hd := bounded_one_twenty g3
  have hw := wrapInt32_round _ _ _ _ ha hb hc hd
  refine ⟨bounded 1 20 g0, bounded 1 20 g1, bounded 1 20 g2, bounded 1 20 g3, ?_,
    ha, hb, hc, hd, hw.2⟩
  simp only [roundValues, hw.1]

/-- The decimal digits. -/
theorem digitChar_isDigit (k : Nat) (hk : k < 10) : (Nat.digitChar k).isDigit = true := by
  interval_cases k <;> decide

theorem toDigitsCore_isDigit (fuel : Nat) : ∀ (n : Nat) (ds : List Char),
    (∀ c ∈ ds, c.isDigit = true) → ∀ c ∈ Nat.toDigitsCore 10 fuel n ds, c.isDigit = true := by
  induction fuel with
  | zero => intro n ds h; simpa [Nat.toDigitsCore] using h
  | succ f ih =>
    intro n ds h
    have hd : ∀ c ∈ Nat.digitChar (n % 10) :: ds, c.isDigit = true := by
      intro c hc
      rcases List.mem_cons.mp hc with rfl | hc
      · exact digitChar_isDigit _ (Nat.mod_lt _ (by norm_num))
      · exact h c hc
    simp only [Nat.toDigitsCore]
    split
    · exact hd
    · exact ih _ _ hd

/-- A decimal number consists of digits and, when negative, a leading minus
sign. -/
theorem number_chars (v : Int) : ∀ c ∈ (number v).data, c = '-' ∨ c.isDigit = true := by
  intro c hc
  cases v with
  | ofNat m =>
    simp only [number, Nat.repr, List.asString, Nat.toDigits] at hc
    exact Or.inr (toDigitsCore_isDigit _ _ _ (by simp) c hc)
  | negSucc m =>
    simp only [number, Nat.repr, List.asString, Nat.toDigits, String.data_append,
      List.mem_append] at hc
    rcases hc with hc | hc
    · left
      simpa using hc
    · exact Or.inr (toDigitsCore_isDigit _ _ _ (by simp) c hc)

/-- A decimal number contains no question mark. -/
theorem number_no_question (v : Int) : '?' ∉ (number v).data := by
  intro h
  rcases number_chars v _ h with h | h
  · exact absurd h (by decide)
  · exact absurd h (by decide)

/-- A decimal number is not the sentinel "NAN". -/
theorem number_ne_NAN (v : Int) : number v ≠ "NAN" := by
  intro h
  have hN : 'N' ∈ (number v).data := by rw [h]; decide
  rcases number_chars v _ hN with h | h
  · exact absurd h (by decide)
  · exact absurd h (by decide)

theorem number_count_question (v : Int) : (number v).data.count '?' = 0 :=
  List.count_eq_zero_of_not_mem (number_no_question v)

theorem slotText_of_ne (v : Int) (h : v ≠ -1) : slotText v = number v := by
  simp [slotText, h]

theorem questionLoop_five (v0 v1 v2 v3 v4 : Int) :
    questionLoop [v0, v1, v2, v3, v4] [0, 1, 2, 3] "" ++ slotText v4 =
      slotText v0 ++ " + " ++ slotText v1 ++ " + " ++ slotText v2 ++ " * " ++ slotText v3
        ++ " = " ++ slotText v4 := by
  apply String.ext
  simp [questionLoop, operArr]

/-- C6: for every outcome of the five draws of getQuestion, the four base
integers lie in [1,20], the fifth value is a + b + c*d of these same
integers, the mask index is one of 0..4, and m_answer is the decimal string
of the value the array holds at the mask index before it is masked. -/
theorem getQuestion_round (g0 g1 g2 g3 g4 : Nat) :
    ∃ a b c d : Int, roundValues g0 g1 g2 g3 = [a, b, c, d, a + b + c * d] ∧
      (1 ≤ a ∧ a ≤ 20) ∧ (1 ≤ b ∧ b ≤ 20) ∧ (1 ≤ c ∧ c ≤ 20) ∧ (1 ≤ d ∧ d ≤ 20) ∧
      maskIndex g4 < 5 ∧
      (getQuestion g0 g1 g2 g3 g4).1 =
        number ([a, b, c, d, a + b + c * d].getD (maskIndex g4) 0) := by
  obtain ⟨a, b, c, d, harr, ha, hb, hc, hd, -⟩ := roundValues_eq g0 g1 g2 g3
  refine ⟨a, b, c, d, harr, ⟨ha.1, by omega⟩, ⟨hb.1, by omega⟩, ⟨hc.1, by omega⟩,
    ⟨hd.1, by omega⟩, maskIndex_lt g4, ?_⟩
  simp only [getQuestion, maskAndRender, harr]

/-- C7: for every outcome of the draws the question is
"s0 + s1 + s2 * s3 = s4", where the slot at the mask index is "?" and every
other slot is the decimal string of its true value; no true value equals the
sentinel -1, and the question holds exactly one question mark. -/
theorem getQuestion_text (g0 g1 g2 g3 g4 : Nat) :
    (getQuestion g0 g1 g2 g3 g4).2 =
        maskedSlot (roundValues g0 g1 g2 g3) (maskIndex g4) 0 ++ " + "
          ++ maskedSlot (roundValues g0 g1 g2 g3) (maskIndex g4) 1 ++ " + "
          ++ maskedSlot (roundValues g0 g1 g2 g3) (maskIndex g4) 2 ++ " * "
          ++ maskedSlot (roundValues g0 g1 g2 g3) (maskIndex g4) 3 ++ " = "
          ++ maskedSlot (roundValues g0 g1 g2 g3) (maskIndex g4) 4 ∧
      (∀ i, (roundValues g0 g1 g2 g3).getD i 0 ≠ -1) ∧
      (getQuestion g0 g1 g2 g3 g4).2.data.count '?' = 1 := by
  obtain ⟨a, b, c, d, harr, ha, hb, hc, hd, he⟩ := roundValues_eq g0 g1 g2 g3
  have hm := maskIndex_lt g4
  have hna : a ≠ -1 := by omega
  have hnb : b ≠ -1 := by omega
  have hnc : c ≠ -1 := by omega
  have hnd : d ≠ -1 := by omega
  have hne : a + b + c * d ≠ -1 := by omega
  have hq : slotText (-1) = "?" := by decide
  have key : (getQuestion g0 g1 g2 g3 g4).2 =
      maskedSlot (roundValues g0 g1 g2 g3) (maskIndex g4) 0 ++ " + "
        ++ maskedSlot (roundValues g0 g1 g2 g3) (maskIndex g4) 1 ++ " + "
        ++ maskedSlot (roundValues g0 g1 g2 g3) (maskIndex g4) 2 ++ " * "
        ++ maskedSlot (roundValues g0 g1 g2 g3) (maskIndex g4) 3 ++ " = "
        ++ maskedSlot (roundValues g0 g1 g2 g3) (maskIndex g4) 4 := by
    simp only [getQuestion, maskAndRender, harr]
    generalize maskIndex g4 = m at hm
    interval_cases m <;>
      (simp only [List.set, List.getD_cons_succ, List.getD_cons_zero]
       rw [questionLoop_five]
       simp [maskedSlot, slotText_of_ne, hq, hna, hnb, hnc, hnd, hne])
  refine ⟨key, ?_, ?_⟩
  · intro i
    rw [harr]
    match i with
    | 0 => simpa using hna
    | 1 => simpa using hnb
    | 2 => simpa using hnc
    | 3 => simpa using hnd
    | 4 => simpa using hne
    | (n + 5) => simp
  · rw [key, harr]
    generalize maskIndex g4 = m at hm
    interval_cases m <;>
      simp [maskedSlot, List.count_append, number_count_question]

/-- C8, the stated question refuted: raw words whose draws are a=5, b=3, c=7,
d=2 with mask index 2 give a question that is not "5 + 3 + ? = 22". -/
theorem getQuestion_example_not_short :
    roundValues 904203642 452101821 1356305462 226050911 = [5, 3, 7, 2, 22] ∧
      maskIndex 1717986919 = 2 ∧
      (getQuestion 904203642 452101821 1356305462 226050911 1717986919).2
        ≠ "5 + 3 + ? = 22" := by
  decide

/-- C8, amended: whenever the draws are a=5, b=3, c=7, d=2 and the mask index
is 2, the fifth value is 22, the question is "5 + 3 + ? * 2 = 22" and the
expected answer is "7". -/
theorem getQuestion_example (g0 g1 g2 g3 g4 : Nat) (ha : bounded 1 20 g0 = 5)
    (hb : bounded 1 20 g1 = 3) (hc : bounded 1 20 g2 = 7) (hd : bounded 1 20 g3 = 2)
    (hm : maskIndex g4 = 2) :
    roundValues g0 g1 g2 g3 = [5, 3, 7, 2, 22] ∧
      getQuestion g0 g1 g2 g3 g4 = ("7", "5 + 3 + ? * 2 = 22") := by
  have harr : roundValues g0 g1 g2 g3 = [5, 3, 7, 2, 22] := by
    simp only [roundValues, ha, hb, hc, hd]
    decide
  refine ⟨harr, ?_⟩
  simp only [getQuestion, harr, hm]
  decide

/-- Raw generator words that realise the round a=5, b=3, c=7, d=2 masked at
slot 2. -/
theorem getQuestion_example_witness :
    (bounded 1 20 904203642 = 5 ∧ bounded 1 20 452101821 = 3 ∧ bounded 1 20 1356305462 = 7 ∧
        bounded 1 20 226050911 = 2 ∧ maskIndex 1717986919 = 2) ∧
      roundValues 904203642 452101821 1356305462 226050911 = [5, 3, 7, 2, 22] ∧
      getQuestion 904203642 452101821 1356305462 226050911 1717986919
        = ("7", "5 + 3 + ? * 2 = 22") :=
  ⟨by decide,
    getQuestion_example 904203642 452101821 1356305462 226050911 1717986919 (by decide)
      (by decide) (by decide) (by decide) (by decide)⟩

theorem string_eq_empty_iff (s : String) : s = "" ↔ s.data = [] := by
  constructor
  · intro h; rw [h]
  · intro h; exact String.ext h

/-! ## Properties of trimmed and simplified -/

theorem dropWhile_all_iff (p : Char → Bool) (l : List Char) :
    (∀ c ∈ l.dropWhile p, p c = true) ↔ ∀ c ∈ l, p c = true := by
  induction l with
  | nil => simp
  | cons a l ih =>
    by_cases ha : p a = true
    · simp [List.dropWhile_cons, ha, ih]
    · simp [List.dropWhile_cons, ha]

theorem trimmedChars_eq_nil_iff (l : List Char) :
    trimmedChars l = [] ↔ ∀ c ∈ l, isSpace c = true := by
  unfold trimmedChars
  rw [List.reverse_eq_nil_iff, List.dropWhile_eq_nil_iff]
  simp only [List.mem_reverse]
  exact dropWhile_all_iff isSpace l

theorem collapseSpaces_all_space (l : List Char) (h : ∀ c ∈ l, isSpace c = true) :
    collapseSpaces true l = [] := by
  induction l with
  | nil => rfl
  | cons a l ih =>
    have ha : isSpace a = true := h a (List.mem_cons_self _ _)
    simp only [collapseSpaces, ha, if_true]
    exact ih (fun c hc => h c (List.mem_cons_of_mem _ hc))

theorem mem_collapseSpaces (l : List Char) : ∀ (b : Bool) (c : Char), c ∈ l →
    isSpace c = false → c ∈ collapseSpaces b l := by
  induction l with
  | nil => intro b c hc; cases hc
  | cons a l ih =>
    intro b c hc hs
    rcases List.mem_cons.mp hc with rfl | hc
    · simp [collapseSpaces, hs]
    · unfold collapseSpaces
      split
      · split
        · exact ih _ _ hc hs
        · exact List.mem_cons_of_mem _ (ih _ _ hc hs)
      · exact List.mem_cons_of_mem _ (ih _ _ hc hs)

theorem simplifiedChars_eq_nil_iff (l : List Char) :
    simplifiedChars l = [] ↔ ∀ c ∈ l, isSpace c = true := by
  constructor
  · intro h
    by_contra hne
    push_neg at hne
    obtain ⟨c, hc, hs⟩ := hne
    have hs2 : isSpace c = false := by simpa using hs
    have hmem := mem_collapseSpaces l true c hc hs2
    have hnil : collapseSpaces true l ≠ [] := List.ne_nil_of_mem hmem
    unfold simplifiedChars at h
    simp only at h
    split at h
    · rename_i hlast
      have hl : (collapseSpaces true l).getLast hnil = ' ' := by
        rw [List.getLast?_eq_getLast _ hnil] at hlast
        exact Option.some.inj hlast
      have hsplit := List.dropLast_append_getLast hnil
      rw [h, hl] at hsplit
      rw [← hsplit] at hmem
      simp only [List.nil_append, List.mem_singleton] at hmem
      rw [hmem] at hs2
      exact absurd hs2 (by decide)
    · exact hnil h
  · intro h
    simp [simplifiedChars, collapseSpaces_all_space l h]

theorem simplified_eq_empty_iff_trimmed (x : String) : simplified x = "" ↔ trimmed x = "" := by
  rw [string_eq_empty_iff, string_eq_empty_iff]
  show simplifiedChars x.data = [] ↔ trimmedChars x.data = []
  rw [simplifiedChars_eq_nil_iff, trimmedChars_eq_nil_iff]

/-! ## Properties of sending -/

theorem inbox_nil (w : Nat) : inbox [] w = [] := rfl

theorem inbox_append (a b : Outbox) (w : Nat) : inbox (a ++ b) w = inbox a w ++ inbox b w := by
  simp [inbox]

theorem inbox_sendJson_self (w : Nat) (m : QJsonObject) : inbox (sendJson w m) w = [m] := by
  simp [inbox, sendJson]

theorem inbox_sendJson_other (d w : Nat) (m : QJsonObject) (h : d ≠ w) :
    inbox (sendJson d m) w = [] := by
  simp [inbox, sendJson, h]

theorem inbox_broadcast_excluded (cs : List Nat) (m : QJsonObject) (w : Nat) :
    inbox (broadcast cs m (some w)) w = [] := by
  induction cs with
  | nil => rfl
  | cons c cs ih =>
    by_cases h : c = w
    · simp [broadcast, h, ih]
    · simp [broadcast, h, inbox_append, inbox_sendJson_other, ih]

theorem inbox_broadcast_not_mem (cs : List Nat) (m : QJsonObject) (ex : Option Nat) (w : Nat)
    (hw : w ∉ cs) : inbox (broadcast cs m ex) w = [] := by
  induction cs with
  | nil => rfl
  | cons c cs ih =>
    have hc : c ≠ w := fun e => hw (e ▸ List.mem_cons_self _ _)
    have hcs : w ∉ cs := fun e => hw (List.mem_cons_of_mem _ e)
    unfold broadcast
    split
    · exact ih hcs
    · rw [inbox_append, inbox_sendJson_other _ _ _ hc, ih hcs]; rfl

theorem inbox_broadcast_mem (cs : List Nat) (m : QJsonObject) (ex : Option Nat) (w : Nat)
    (hnd : cs.Nodup) (hw : w ∈ cs) (hex : ex ≠ some w) : inbox (broadcast cs m ex) w = [m] := by
  induction cs with
  | nil => cases hw
  | cons c cs ih =>
    rw [List.nodup_cons] at hnd
    by_cases hc : c = w
    · subst hc
      have : ¬ (some c = ex) := fun e => hex e.symm
      simp only [broadcast, this, if_false]
      rw [inbox_append, inbox_sendJson_self, inbox_broadcast_not_mem _ _ _ _ hnd.1]; rfl
    · have hw2 : w ∈ cs := by
        rcases List.mem_cons.mp hw with e | e
        · exact absurd e.symm hc
        · exact e
      unfold broadcast
      split
      · exact ih hnd.2 hw2
      · rw [inbox_append, inbox_sendJson_other _ _ _ hc, ih hnd.2 hw2]; rfl

/-! ## Properties of the case-insensitive comparison -/

theorem equalsCI_comm (env : Env) (a b : String) : equalsCI env a b = equalsCI env b a := by
  unfold equalsCI
  exact BEq.comm

theorem equalsCI_refl (env : Env) (a : String) : equalsCI env a a = true := by
  simp [equalsCI]

theorem equalsCI_length (env : Env) (a b : String) (h : equalsCI env a b = true) :
    a.data.length = b.data.length := by
  simp only [equalsCI, beq_iff_eq] at h
  have := congrArg List.length h
  simpa using this

theorem equalsCI_empty_left (env : Env) (b : String) (h : equalsCI env "" b = true) : b = "" := by
  have := equalsCI_length env _ _ h
  rw [string_eq_empty_iff]
  exact List.length_eq_zero.mp (by simpa using this.symm)

theorem nameTaken_eq_false_iff (env : Env) (un : Nat → String) (sender : Nat) (n : String)
    (cs : List Nat) :
    nameTaken env un sender n cs = false ↔
      ∀ w ∈ cs, w ≠ sender → equalsCI env (un w) n = false := by
  induction cs with
  | nil => simp [nameTaken]
  | cons c cs ih =>
    unfold nameTaken
    by_cases hc : c = sender
    · simp [hc, ih]
    · by_cases he : equalsCI env (un c) n = true
      · simp [hc, he]
      · simp [hc, he, ih]

theorem nameTaken_eq_true_iff (env : Env) (un : Nat → String) (sender : Nat) (n : String)
    (cs : List Nat) :
    nameTaken env un sender n cs = true ↔
      ∃ w ∈ cs, w ≠ sender ∧ equalsCI env (un w) n = true := by
  rw [← Bool.not_eq_false, nameTaken_eq_false_iff]
  simp

/-! ## Properties of the protocol handler -/

theorem equalsCI_login_false (env : Env) (t : String)
    (h : equalsCI env t "message" = true ∨ equalsCI env t "answer" = true) :
    equalsCI env t "login" = false := by
  rw [← Bool.not_eq_true]
  intro hl
  have h5 := equalsCI_length env _ _ hl
  rcases h with h | h
  · have h7 := equalsCI_length env _ _ h
    rw [h5] at h7
    exact absurd h7 (by decide)
  · have h6 := equalsCI_length env _ _ h
    rw [h5] at h6
    exact absurd h6 (by decide)

theorem equalsCI_message_false (env : Env) (t : String) (h : equalsCI env t "answer" = true) :
    equalsCI env t "message" = false := by
  rw [← Bool.not_eq_true]
  intro hl
  have h7 := equalsCI_length env _ _ hl
  have h6 := equalsCI_length env _ _ h
  rw [h7] at h6
  exact absurd h6 (by decide)

/-- The handler for a logged out sender never touches the registry, m_answer
or any lastAnswer. -/
theorem jsonFromLoggedOut_frame (env : Env) (s : ChatServer) (sender : Nat) (doc : QJsonObject) :
    (jsonFromLoggedOut env s sender doc).1.m_clients = s.m_clients ∧
      (jsonFromLoggedOut env s sender doc).1.m_answer = s.m_answer ∧
      (jsonFromLoggedOut env s sender doc).1.lastAnswer = s.lastAnswer ∧
      ∀ w, w ≠ sender → (jsonFromLoggedOut env s sender doc).1.userName w = s.userName w := by
  unfold jsonFromLoggedOut
  simp only
  split_ifs <;> simp_all [Function.update]

/-- The handler for a logged in sender never touches the registry, m_answer
or any userName. -/
theorem jsonFromLoggedIn_frame (env : Env) (s : ChatServer) (sender : Nat) (doc : QJsonObject) :
    (jsonFromLoggedIn env s sender doc).1.m_clients = s.m_clients ∧
      (jsonFromLoggedIn env s sender doc).1.m_answer = s.m_answer ∧
      (jsonFromLoggedIn env s sender doc).1.userName = s.userName ∧
      ∀ w, w ≠ sender → (jsonFromLoggedIn env s sender doc).1.lastAnswer w = s.lastAnswer w := by
  unfold jsonFromLoggedIn
  simp only
  split_ifs <;> simp_all [Function.update]

/-- What a login does to the userName of its sender: it stays empty, or it
becomes a non-empty name that no other registered worker holds. -/
theorem jsonFromLoggedOut_userName (env : Env) (s : ChatServer) (sender : Nat)
    (doc : QJsonObject) :
    (jsonFromLoggedOut env s sender doc).1.userName sender = s.userName sender ∨
      ((jsonFromLoggedOut env s sender doc).1.userName sender ≠ "" ∧
        ∀ w ∈ s.m_clients, w ≠ sender →
          equalsCI env (s.userName w)
            ((jsonFromLoggedOut env s sender doc).1.userName sender) = false) := by
  unfold jsonFromLoggedOut
  simp only
  split_ifs with h1 h2 h3 h4 h5
  · exact Or.inl rfl
  · exact Or.inl rfl
  · exact Or.inl rfl
  · exact Or.inl rfl
  · exact Or.inl rfl
  · right
    simp only [Function.update_same]
    refine ⟨h4, ?_⟩
    have h5f : nameTaken env s.userName sender
        (simplified (QJsonObject.value doc "username").toString) s.m_clients = false := by
      simpa using h5
    exact (nameTaken_eq_false_iff _ _ _ _ _).mp h5f

/-- C5: a session that has not logged in and sends a message of type
"message" or "answer", whatever its fields, gets no reply, nothing is sent to
anyone, and the whole server state is unchanged. -/
theorem jsonReceived_loggedOut_ignored (env : Env) (s : ChatServer) (sender : Nat)
    (doc : QJsonObject) (t : String) (hname : s.userName sender = "")
    (htype : doc.value "type" = QJsonValue.string t)
    (hkind : equalsCI env t "message" = true ∨ equalsCI env t "answer" = true) :
    jsonReceived env s sender doc = (s, []) := by
  have hl := equalsCI_login_false env t hkind
  simp [jsonReceived, hname, jsonFromLoggedOut, htype, QJsonValue.isNull, QJsonValue.isString,
    QJsonValue.toString, hl]

/-- C2, the stated claim refuted: two sessions are registered and neither has
logged in; session 1 sends a login whose username is the empty string, which
equals the (empty) userName of session 2 case-insensitively, and the server
sends nothing at all. -/
theorem login_empty_name_no_reply :
    validTrace asciiEnv (initialServer asciiEnv)
        [Event.incomingConnection 1 true, Event.incomingConnection 2 true,
          Event.jsonReceived 1 (loginDoc "")] = true ∧
      twoGuests.userName 1 = "" ∧
      (2 ∈ twoGuests.m_clients ∧ (2 : Nat) ≠ 1 ∧
        equalsCI asciiEnv (twoGuests.userName 2) "" = true) ∧
      (jsonReceived asciiEnv twoGuests 1 (loginDoc "")).2 = [] := by
  decide

/-- C2, amended: for every registry state and every session with an empty
userName, a login whose username is non-empty after whitespace simplification
and, so simplified, equals case-insensitively the userName of another
registered session produces exactly one outbound message, the failure reply
with reason "duplicate username" sent to the requester, and leaves the whole
server state unchanged. -/
theorem jsonReceived_duplicate_login (env : Env) (s : ChatServer) (sender : Nat)
    (doc : QJsonObject) (t u : String) (w : Nat) (hname : s.userName sender = "")
    (htype : doc.value "type" = QJsonValue.string t) (hlogin : equalsCI env t "login" = true)
    (huser : doc.value "username" = QJsonValue.string u) (hne : simplified u ≠ "")
    (hw : w ∈ s.m_clients) (hws : w ≠ sender)
    (hcol : equalsCI env (s.userName w) (simplified u) = true) :
    jsonReceived env s sender doc =
      (s, [(sender, [("type", QJsonValue.string "login"), ("success", QJsonValue.bool false),
        ("reason", QJsonValue.string "duplicate username")])]) := by
  have htaken : nameTaken env s.userName sender (simplified u) s.m_clients = true :=
    (nameTaken_eq_true_iff _ _ _ _ _).mpr ⟨w, hw, hws, hcol⟩
  have hmsg : loginFailureMessage = [("type", QJsonValue.string "login"),
      ("success", QJsonValue.bool false), ("reason", QJsonValue.string "duplicate username")] := by
    decide
  simp [jsonReceived, hname, jsonFromLoggedOut, htype, huser, QJsonValue.isNull,
    QJsonValue.isString, QJsonValue.toString, hlogin, hne, htaken, sendJson, hmsg]

/-- C3: in a registry that holds each session once, a session with an empty
userName that sends a login whose username is non-empty after trimming and
whose simplified form no other registered session holds case-insensitively
becomes logged in under the simplified name, which is non-empty. It is sent
exactly the success reply, every other registered session is sent exactly one
newuser message carrying the stored name, nobody else is sent anything, and
no other userName and no lastAnswer changes. -/
theorem jsonReceived_login_accepted (env : Env) (s : ChatServer) (sender : Nat)
    (doc : QJsonObject) (t u : String) (hnd : s.m_clients.Nodup)
    (hname : s.userName sender = "")
    (htype : doc.value "type" = QJsonValue.string t) (hlogin : equalsCI env t "login" = true)
    (huser : doc.value "username" = QJsonValue.string u) (hne : trimmed u ≠ "")
    (hfree : ∀ w ∈ s.m_clients, w ≠ sender →
      equalsCI env (s.userName w) (simplified u) = false) :
    (jsonReceived env s sender doc).1.userName sender = simplified u ∧
      simplified u ≠ "" ∧
      inbox (jsonReceived env s sender doc).2 sender =
        [[("type", QJsonValue.string "login"), ("success", QJsonValue.bool true)]] ∧
      (∀ w ∈ s.m_clients, w ≠ sender →
        inbox (jsonReceived env s sender doc).2 w =
          [[("type", QJsonValue.string "newuser"),
            ("username", QJsonValue.string (simplified u))]]) ∧
      (∀ w, w ∉ s.m_clients → w ≠ sender → inbox (jsonReceived env s sender doc).2 w = []) ∧
      (∀ w, w ≠ sender → (jsonReceived env s sender doc).1.userName w = s.userName w) ∧
      (jsonReceived env s sender doc).1.lastAnswer = s.lastAnswer ∧
      (jsonReceived env s sender doc).1.m_clients = s.m_clients ∧
      (jsonReceived env s sender doc).1.m_answer = s.m_answer := by
  have hne2 : simplified u ≠ "" := fun h => hne ((simplified_eq_empty_iff_trimmed u).mp h)
  have htaken : nameTaken env s.userName sender (simplified u) s.m_clients = false :=
    (nameTaken_eq_false_iff _ _ _ _ _).mpr hfree
  have hs : loginSuccessMessage =
      [("type", QJsonValue.string "login"), ("success", QJsonValue.bool true)] := by decide
  have hn : newUserMessage (simplified u) =
      [("type", QJsonValue.string "newuser"), ("username", QJsonValue.string (simplified u))] := by
    simp [newUserMessage, QJsonObject.set, QJsonObject.empty]
  have hrun : jsonReceived env s sender doc =
      ({ s with userName := Function.update s.userName sender (simplified u) },
        sendJson sender loginSuccessMessage
          ++ broadcast s.m_clients (newUserMessage (simplified u)) (some sender)) := by
    simp [jsonReceived, hname, jsonFromLoggedOut, htype, huser, QJsonValue.isNull,
      QJsonValue.isString, QJsonValue.toString, hlogin, hne2, htaken]
  rw [hrun]
  refine ⟨by simp, hne2, ?_, ?_, ?_, ?_, rfl, rfl, rfl⟩
  · rw [inbox_append, inbox_sendJson_self, inbox_broadcast_excluded, hs]
    rfl
  · intro w hw hws
    have hex : (some sender : Option Nat) ≠ some w := fun e => hws (Option.some.inj e).symm
    rw [inbox_append, inbox_sendJson_other _ _ _ (Ne.symm hws),
      inbox_broadcast_mem _ _ _ _ hnd hw hex, hn]
    rfl
  · intro w hw hws
    rw [inbox_append, inbox_sendJson_other _ _ _ (Ne.symm hws),
      inbox_broadcast_not_mem _ _ _ _ hw]
    rfl
  · intro w hws
    simp [Function.update, hws]

/-! ## Invariants of the reachable states -/

theorem step_m_clients_nodup (env : Env) (s : ChatServer) (e : Event)
    (hnd : s.m_clients.Nodup) (hen : e.enabled s = true) : (step env s e).1.m_clients.Nodup := by
  cases e with
  | incomingConnection w ok =>
    simp only [Event.enabled, decide_eq_true_eq] at hen
    cases ok
    · simpa [step, incomingConnection] using hnd
    · simp only [step, incomingConnection]
      exact List.Nodup.append hnd (List.nodup_singleton w) (by simpa using hen)
  | jsonReceived w doc =>
    simp only [step, jsonReceived]
    split
    · rw [(jsonFromLoggedOut_frame env s w doc).1]; exact hnd
    · rw [(jsonFromLoggedIn_frame env s w doc).1]; exact hnd
  | userDisconnected w =>
    simp only [step, userDisconnected]
    split <;> exact hnd.filter _
  | userError w => exact hnd
  | automaticSendQuestion g0 g1 g2 g3 g4 => exact hnd

/-- In every reachable state each registered worker is registered once. -/
theorem reachable_nodup (env : Env) (s : ChatServer) (h : Reachable env s) :
    s.m_clients.Nodup := by
  induction h with
  | init => exact List.nodup_nil
  | step s e _ hen ih => exact step_m_clients_nodup env s e ih hen

/-- A valid trace from a reachable state ends in a reachable state. -/
theorem reachable_runTrace (env : Env) (es : List Event) : ∀ (s : ChatServer),
    Reachable env s → validTrace env s es = true → Reachable env (runTrace env s es) := by
  induction es with
  | nil => intro s h _; exact h
  | cons e es ih =>
    intro s h hv
    simp only [validTrace, Bool.and_eq_true] at hv
    exact ih _ (Reachable.step s e h hv.1) hv.2

theorem step_uniqueNames (env : Env) (s : ChatServer) (e : Event)
    (hu : UniqueNames env s) (hen : e.enabled s = true) : UniqueNames env (step env s e).1 := by
  cases e with
  | incomingConnection w ok =>
    simp only [Event.enabled, decide_eq_true_eq] at hen
    cases ok
    · simpa [step, incomingConnection] using hu
    · simp only [step, incomingConnection]
      intro w1 h1 w2 h2 hne hn1 hn2
      simp only [Bool.not_true, Bool.false_eq_true, if_false] at h1 h2 hn1 hn2 ⊢
      have e1 : w1 ≠ w := by
        intro e; subst e; simp at hn1
      have e2 : w2 ≠ w := by
        intro e; subst e; simp at hn2
      have m1 : w1 ∈ s.m_clients := by simpa [e1] using h1
      have m2 : w2 ∈ s.m_clients := by simpa [e2] using h2
      simp only [Function.update_noteq e1, Function.update_noteq e2] at hn1 hn2 ⊢
      exact hu w1 m1 w2 m2 hne hn1 hn2
  | jsonReceived w doc =>
    simp only [step, jsonReceived]
    split
    · obtain ⟨hc, -, -, hframe⟩ := jsonFromLoggedOut_frame env s w doc
      have hcase := jsonFromLoggedOut_userName env s w doc
      intro w1 h1 w2 h2 hne hn1 hn2
      rw [hc] at h1 h2
      by_cases e1 : w1 = w
      · subst e1
        have e2 : w2 ≠ w1 := Ne.symm hne
        rw [hframe w2 e2] at hn2 ⊢
        rcases hcase with hsame | ⟨-, hfree⟩
        · rw [hsame] at hn1; contradiction
        · rw [equalsCI_comm]
          exact hfree w2 h2 e2
      · rw [hframe w1 e1] at hn1 ⊢
        by_cases e2 : w2 = w
        · subst e2
          rcases hcase with hsame | ⟨-, hfree⟩
          · rw [hsame] at hn2; contradiction
          · exact hfree w1 h1 e1
        · rw [hframe w2 e2] at hn2 ⊢
          exact hu w1 h1 w2 h2 hne hn1 hn2
    · obtain ⟨hc, -, hun, -⟩ := jsonFromLoggedIn_frame env s w doc
      intro w1 h1 w2 h2 hne hn1 hn2
      rw [hc] at h1 h2
      rw [hun] at hn1 hn2 ⊢
      exact hu w1 h1 w2 h2 hne hn1 hn2
  | userDisconnected w =>
    have key : UniqueNames env
        { s with m_clients := s.m_clients.filter (fun v => v != w) } := by
      intro w1 h1 w2 h2 hne hn1 hn2
      exact hu w1 (List.mem_of_mem_filter h1) w2 (List.mem_of_mem_filter h2) hne hn1 hn2
    simp only [step, userDisconnected]
    split <;> exact key
  | userError w => exact hu
  | automaticSendQuestion g0 g1 g2 g3 g4 => exact hu

/-- C1: in every state reachable from the constructed server by connection
accepts, inbound messages, disconnects, transport errors and quiz ticks, no
two distinct registered sessions have non-empty userNames that are equal
under case-insensitive comparison. -/
theorem reachable_uniqueNames (env : Env) (s : ChatServer) (h : Reachable env s) :
    UniqueNames env s := by
  induction h with
  | init =>
    intro w1 h1
    cases h1
  | step s e _ hen ih => exact step_uniqueNames env s e ih hen

/-! ## Chat messages -/

/-- C4: in every reachable state, when a session with a non-empty userName
sends a message of type "message" whose text is a string that is non-empty
after trimming, every other registered session (so every other logged-in
one) is sent exactly one message, the relayed chat message with the trimmed
text and the stored userName of the sender; the sender is sent nothing,
nobody outside the registry is sent anything, and the server state is
unchanged. -/
theorem jsonReceived_chat_message (env : Env) (s : ChatServer) (sender : Nat)
    (doc : QJsonObject) (t x : String) (hr : Reachable env s)
    (hname : s.userName sender ≠ "")
    (htype : doc.value "type" = QJsonValue.string t) (hmsg : equalsCI env t "message" = true)
    (htext : doc.value "text" = QJsonValue.string x) (hne : trimmed x ≠ "") :
    (jsonReceived env s sender doc).1 = s ∧
      (∀ w ∈ s.m_clients, w ≠ sender →
        inbox (jsonReceived env s sender doc).2 w =
          [[("type", QJsonValue.string "message"), ("text", QJsonValue.string (trimmed x)),
            ("sender", QJsonValue.string (s.userName sender))]]) ∧
      inbox (jsonReceived env s sender doc).2 sender = [] ∧
      (∀ w, w ∉ s.m_clients → inbox (jsonReceived env s sender doc).2 w = []) := by
  have hnd := reachable_nodup env s hr
  have hm : chatMessage (trimmed x) (s.userName sender) =
      [("type", QJsonValue.string "message"), ("text", QJsonValue.string (trimmed x)),
        ("sender", QJsonValue.string (s.userName sender))] := by
    simp [chatMessage, QJsonObject.set, QJsonObject.empty]
  have hrun : jsonReceived env s sender doc =
      (s, broadcast s.m_clients (chatMessage (trimmed x) (s.userName sender)) (some sender)) := by
    simp [jsonReceived, hname, jsonFromLoggedIn, htype, htext, QJsonValue.isNull,
      QJsonValue.isString, QJsonValue.toString, hmsg, hne]
  rw [hrun]
  refine ⟨rfl, ?_, ?_, ?_⟩
  · intro w hw hws
    have hex : (some sender : Option Nat) ≠ some w := fun e => hws (Option.some.inj e).symm
    rw [inbox_broadcast_mem _ _ _ _ hnd hw hex, hm]
  · exact inbox_broadcast_excluded _ _ _
  · intro w hw
    exact inbox_broadcast_not_mem _ _ _ _ hw

/-! ## The quiz tick -/

theorem inbox_gradeLoop_not_mem (la : Nat → String) (ans : String) (cs : List Nat) (w : Nat)
    (hw : w ∉ cs) : ∀ msg : QJsonObject, inbox (gradeLoop la ans cs msg) w = [] := by
  induction cs with
  | nil => intro msg; rfl
  | cons c cs ih =>
    intro msg
    have hc : c ≠ w := fun e => hw (e ▸ List.mem_cons_self _ _)
    have hcs : w ∉ cs := fun e => hw (List.mem_cons_of_mem _ e)
    simp only [gradeLoop]
    rw [inbox_append, inbox_sendJson_other _ _ _ hc, ih hcs]
    rfl

theorem set_result_twice (b : Bool) (v : QJsonValue) :
    QJsonObject.set [("type", QJsonValue.string "result"), ("result", QJsonValue.bool b)]
      "result" v = [("type", QJsonValue.string "result"), ("result", v)] := by
  simp [QJsonObject.set]

/-- What the grading loop sends to a registered worker: one result message
whose flag compares the lastAnswer of that worker with m_answer. -/
theorem inbox_gradeLoop_mem (la : Nat → String) (ans : String) (cs : List Nat) (w : Nat)
    (hnd : cs.Nodup) (hw : w ∈ cs) : ∀ msg : QJsonObject,
    (∀ v, QJsonObject.set msg "result" v = [("type", QJsonValue.string "result"), ("result", v)]) →
    inbox (gradeLoop la ans cs msg) w =
      [[("type", QJsonValue.string "result"),
        ("result", QJsonValue.bool (decide (la w = ans)))]] := by
  induction cs with
  | nil => cases hw
  | cons c cs ih =>
    intro msg hmsg
    rw [List.nodup_cons] at hnd
    have hnext : ∀ v, QJsonObject.set
        (if la c = ans then QJsonObject.set msg "result" (QJsonValue.bool true)
          else QJsonObject.set msg "result" (QJsonValue.bool false)) "result" v
        = [("type", QJsonValue.string "result"), ("result", v)] := by
      intro v
      split <;> (rw [hmsg]; exact set_result_twice _ v)
    simp only [gradeLoop]
    rw [inbox_append]
    by_cases hc : c = w
    · subst hc
      rw [inbox_sendJson_self, inbox_gradeLoop_not_mem _ _ _ _ hnd.1]
      by_cases hla : la c = ans
      · simp [hla, hmsg]
      · simp [hla, hmsg]
    · have hw2 : w ∈ cs := by
        rcases List.mem_cons.mp hw with e | e
        · exact absurd e.symm hc
        · exact e
      rw [inbox_sendJson_other _ _ _ hc, ih hnd.2 hw2 _ hnext]
      rfl

/-- What a grading tick sends to a registered worker of a registry that holds
each worker once: its own result, then the new question. -/
theorem inbox_automaticSendQuestion (s : ChatServer) (g0 g1 g2 g3 g4 w : Nat)
    (hnd : s.m_clients.Nodup) (hans : s.m_answer ≠ "NAN") (hw : w ∈ s.m_clients) :
    inbox (automaticSendQuestion s g0 g1 g2 g3 g4).2 w =
      [[("type", QJsonValue.string "result"),
          ("result", QJsonValue.bool (decide (s.lastAnswer w = s.m_answer)))],
        [("type", QJsonValue.string "questionarrive"),
          ("question", QJsonValue.string (getQuestion g0 g1 g2 g3 g4).2)]] := by
  have hbase : ∀ v, QJsonObject.set
      (QJsonObject.set QJsonObject.empty "type" (QJsonValue.string "result")) "result" v
      = [("type", QJsonValue.string "result"), ("result", v)] := by
    intro v
    simp [QJsonObject.set, QJsonObject.empty]
  have hq : questionMessage (getQuestion g0 g1 g2 g3 g4).2 =
      [("type", QJsonValue.string "questionarrive"),
        ("question", QJsonValue.string (getQuestion g0 g1 g2 g3 g4).2)] := by
    simp [questionMessage, QJsonObject.set, QJsonObject.empty]
  simp only [automaticSendQuestion, hans, ne_eq, not_false_eq_true, if_true]
  rw [inbox_append, inbox_gradeLoop_mem _ _ _ _ hnd hw _ hbase,
    inbox_broadcast_mem _ _ _ _ hnd hw (by simp), hq]
  rfl

theorem inbox_automaticSendQuestion_not_mem (s : ChatServer) (g0 g1 g2 g3 g4 w : Nat)
    (hw : w ∉ s.m_clients) : inbox (automaticSendQuestion s g0 g1 g2 g3 g4).2 w = [] := by
  simp only [automaticSendQuestion]
  rw [inbox_append, inbox_broadcast_not_mem _ _ _ _ hw]
  split
  · rw [inbox_gradeLoop_not_mem _ _ _ _ hw]; rfl
  · rfl

/-- C9: on a quiz tick taken in a reachable state whose m_answer is not the
sentinel "NAN", every registered session is sent exactly two messages: first
one result message whose flag is true exactly when the lastAnswer of that
same session equals, as a string, the m_answer of the round just finished,
and then the questionarrive message of the new round. The flag is a function
of that lastAnswer and that m_answer alone. -/
theorem automaticSendQuestion_grades (env : Env) (s : ChatServer) (g0 g1 g2 g3 g4 w : Nat)
    (hr : Reachable env s) (hans : s.m_answer ≠ "NAN") (hw : w ∈ s.m_clients) :
    inbox (automaticSendQuestion s g0 g1 g2 g3 g4).2 w =
      [[("type", QJsonValue.string "result"),
          ("result", QJsonValue.bool (decide (s.lastAnswer w = s.m_answer)))],
        [("type", QJsonValue.string "questionarrive"),
          ("question", QJsonValue.string (getQuestion g0 g1 g2 g3 g4).2)]] :=
  inbox_automaticSendQuestion s g0 g1 g2 g3 g4 w (reachable_nodup env s hr) hans hw

/-! ## Answers that outlive their round -/

theorem jsonFromLoggedIn_lastAnswer_of_not_answer (env : Env) (s : ChatServer) (sender : Nat)
    (doc : QJsonObject) (h : isAnswerMessage env doc = false) :
    (jsonFromLoggedIn env s sender doc).1.lastAnswer = s.lastAnswer := by
  unfold jsonFromLoggedIn
  simp only
  split_ifs with h1 h2 h3 h4 h5
  · rfl
  · rfl
  · rfl
  · rfl
  · exfalso
    simp only [isAnswerMessage, h5, Bool.and_true] at h
    simp [h] at h1
  · rfl

/-- An event that is no tick, no answer from `w` and no construction of `w`
leaves the lastAnswer of `w` and m_answer as they are. -/
theorem step_leavesAnswerOf (env : Env) (s : ChatServer) (e : Event) (w : Nat)
    (h : e.leavesAnswerOf env w = true) :
    (step env s e).1.lastAnswer w = s.lastAnswer w ∧ (step env s e).1.m_answer = s.m_answer := by
  cases e with
  | incomingConnection v ok =>
    have hv : v ≠ w := by simpa [Event.leavesAnswerOf] using h
    cases ok
    · exact ⟨rfl, rfl⟩
    · simp [step, incomingConnection, Function.update, Ne.symm hv]
  | jsonReceived v doc =>
    simp only [step, jsonReceived]
    split
    · obtain ⟨-, ha, hl, -⟩ := jsonFromLoggedOut_frame env s v doc
      exact ⟨by rw [hl], ha⟩
    · obtain ⟨-, ha, -, hl⟩ := jsonFromLoggedIn_frame env s v doc
      refine ⟨?_, ha⟩
      by_cases hv : w = v
      · subst hv
        have hna : isAnswerMessage env doc = false := by
          simpa [Event.leavesAnswerOf] using h
        rw [jsonFromLoggedIn_lastAnswer_of_not_answer env s w doc hna]
      · exact hl w hv
  | userDisconnected v =>
    simp only [step, userDisconnected]
    split <;> exact ⟨rfl, rfl⟩
  | userError v => exact ⟨rfl, rfl⟩
  | automaticSendQuestion g0 g1 g2 g3 g4 => simp [Event.leavesAnswerOf] at h

theorem runTrace_leavesAnswerOf (env : Env) (w : Nat) (es : List Event) : ∀ (s : ChatServer),
    (∀ e ∈ es, e.leavesAnswerOf env w = true) →
    (runTrace env s es).lastAnswer w = s.lastAnswer w ∧ (runTrace env s es).m_answer = s.m_answer := by
  induction es with
  | nil => intro s _; exact ⟨rfl, rfl⟩
  | cons e es ih =>
    intro s h
    have h1 := step_leavesAnswerOf env s e w (h e (List.mem_cons_self _ _))
    have h2 := ih (step env s e).1 (fun e2 he2 => h e2 (List.mem_cons_of_mem _ he2))
    simp only [runTrace]
    exact ⟨h2.1.trans h1.1, h2.2.trans h1.2⟩

/-- The expected answer of a generated round is never the sentinel. -/
theorem getQuestion_answer_ne_NAN (g0 g1 g2 g3 g4 : Nat) :
    (getQuestion g0 g1 g2 g3 g4).1 ≠ "NAN" := by
  simp only [getQuestion, maskAndRender]
  exact number_ne_NAN _

/-- C10, amended: from a reachable state a tick issues a round; events follow
among which there is no tick, no answer message from session `w` and no
construction of `w`; at the next tick `w`, if registered, is sent exactly one
result message, whose flag is true exactly when the lastAnswer that `w`
already held when the round was issued equals the expected answer of that
round, followed by the next question. -/
theorem unanswered_round_graded_on_stored_answer (env : Env) (s : ChatServer)
    (g0 g1 g2 g3 g4 h0 h1 h2 h3 h4 w : Nat) (es : List Event) (hr : Reachable env s)
    (hv : validTrace env (automaticSendQuestion s g0 g1 g2 g3 g4).1 es = true)
    (hq : ∀ e ∈ es, e.leavesAnswerOf env w = true)
    (hw : w ∈ (runTrace env (automaticSendQuestion s g0 g1 g2 g3 g4).1 es).m_clients) :
    inbox (automaticSendQuestion
        (runTrace env (automaticSendQuestion s g0 g1 g2 g3 g4).1 es) h0 h1 h2 h3 h4).2 w =
      [[("type", QJsonValue.string "result"),
          ("result",
            QJsonValue.bool (decide (s.lastAnswer w = (getQuestion g0 g1 g2 g3 g4).1)))],
        [("type", QJsonValue.string "questionarrive"),
          ("question", QJsonValue.string (getQuestion h0 h1 h2 h3 h4).2)]] := by
  have hr1 : Reachable env (automaticSendQuestion s g0 g1 g2 g3 g4).1 :=
    Reachable.step s (Event.automaticSendQuestion g0 g1 g2 g3 g4) hr rfl
  have hr2 := reachable_runTrace env es _ hr1 hv
  obtain ⟨hl, ha⟩ := runTrace_leavesAnswerOf env w es (automaticSendQuestion s g0 g1 g2 g3 g4).1 hq
  have ha1 : (automaticSendQuestion s g0 g1 g2 g3 g4).1.m_answer = (getQuestion g0 g1 g2 g3 g4).1 :=
    rfl
  have hl1 : (automaticSendQuestion s g0 g1 g2 g3 g4).1.lastAnswer w = s.lastAnswer w := rfl
  have hans : (runTrace env (automaticSendQuestion s g0 g1 g2 g3 g4).1 es).m_answer ≠ "NAN" := by
    rw [ha, ha1]
    exact getQuestion_answer_ne_NAN g0 g1 g2 g3 g4
  rw [inbox_automaticSendQuestion _ h0 h1 h2 h3 h4 w (reachable_nodup env _ hr2) hans hw,
    hl, ha, ha1, hl1]

/-- C10, the stated claim refuted: Alice answers "7" in the first round, whose
expected answer is "7"; the second tick issues a round whose expected answer
is again "7"; Alice sends nothing during that round, and the third tick
sends her result true. -/
theorem stale_answer_graded_correct :
    validTrace asciiEnv (initialServer asciiEnv)
        [Event.incomingConnection 1 true, Event.jsonReceived 1 (loginDoc "Alice"), tickSeven,
          Event.jsonReceived 1 (answerDoc "7"), tickSeven] = true ∧
      1 ∈ (runTrace asciiEnv (initialServer asciiEnv)
        [Event.incomingConnection 1 true, Event.jsonReceived 1 (loginDoc "Alice"), tickSeven,
          Event.jsonReceived 1 (answerDoc "7"), tickSeven]).m_clients ∧
      inbox
        (automaticSendQuestion
          (runTrace asciiEnv (initialServer asciiEnv)
            [Event.incomingConnection 1 true, Event.jsonReceived 1 (loginDoc "Alice"), tickSeven,
              Event.jsonReceived 1 (answerDoc "7"), tickSeven])
          0 0 0 0 0).2 1 =
        [[("type", QJsonValue.string "result"), ("result", QJsonValue.bool true)],
          [("type", QJsonValue.string "questionarrive"),
            ("question", QJsonValue.string "? + 1 + 1 * 1 = 3")]] := by
  decide

/-! ## Worked examples -/

/-- Alice and Bob are logged in and a third client has tried the name
"alice": the state is reachable and its names are unique. -/
theorem reachable_uniqueNames_witness :
    Reachable asciiEnv
        (runTrace asciiEnv lobbyWithGuest [Event.jsonReceived 3 (loginDoc "alice")]) ∧
      UniqueNames asciiEnv
        (runTrace asciiEnv lobbyWithGuest [Event.jsonReceived 3 (loginDoc "alice")]) :=
  ⟨reachable_runTrace asciiEnv _ _ (reachable_runTrace asciiEnv _ _ Reachable.init (by decide))
      (by decide),
    reachable_uniqueNames asciiEnv _
      (reachable_runTrace asciiEnv _ _ (reachable_runTrace asciiEnv _ _ Reachable.init (by decide))
        (by decide))⟩

/-- With Alice logged in, a third client asking for " alice " is refused. -/
theorem jsonReceived_duplicate_login_witness :
    (lobbyWithGuest.userName 3 = "" ∧
        QJsonObject.value (loginDoc " alice ") "type" = QJsonValue.string "login" ∧
        equalsCI asciiEnv "login" "login" = true ∧
        QJsonObject.value (loginDoc " alice ") "username" = QJsonValue.string " alice " ∧
        simplified " alice " ≠ "" ∧
        1 ∈ lobbyWithGuest.m_clients ∧ (1 : Nat) ≠ 3 ∧
        equalsCI asciiEnv (lobbyWithGuest.userName 1) (simplified " alice ") = true) ∧
      jsonReceived asciiEnv lobbyWithGuest 3 (loginDoc " alice ") =
        (lobbyWithGuest,
          [(3, [("type", QJsonValue.string "login"), ("success", QJsonValue.bool false),
            ("reason", QJsonValue.string "duplicate username")])]) :=
  ⟨by decide,
    jsonReceived_duplicate_login asciiEnv lobbyWithGuest 3 (loginDoc " alice ") "login"
      " alice " 1 (by decide) (by decide) (by decide) (by decide) (by decide) (by decide)
      (by decide) (by decide)⟩

/-- With Alice and Bob logged in, a third client asking for "  Carol   Ann "
becomes "Carol Ann" and Alice is told so. -/
theorem jsonReceived_login_accepted_witness :
    (lobbyWithGuest.m_clients.Nodup ∧ lobbyWithGuest.userName 3 = "" ∧
        QJsonObject.value (loginDoc "  Carol   Ann ") "type" = QJsonValue.string "login" ∧
        equalsCI asciiEnv "login" "login" = true ∧
        QJsonObject.value (loginDoc "  Carol   Ann ") "username"
          = QJsonValue.string "  Carol   Ann " ∧
        trimmed "  Carol   Ann " ≠ "" ∧
        ∀ w ∈ lobbyWithGuest.m_clients, w ≠ 3 →
          equalsCI asciiEnv (lobbyWithGuest.userName w) (simplified "  Carol   Ann ") = false) ∧
      (jsonReceived asciiEnv lobbyWithGuest 3 (loginDoc "  Carol   Ann ")).1.userName 3
        = "Carol Ann" ∧
      inbox (jsonReceived asciiEnv lobbyWithGuest 3 (loginDoc "  Carol   Ann ")).2 1 =
        [[("type", QJsonValue.string "newuser"), ("username", QJsonValue.string "Carol Ann")]] :=
  ⟨by decide,
    (jsonReceived_login_accepted asciiEnv lobbyWithGuest 3 (loginDoc "  Carol   Ann ") "login"
      "  Carol   Ann " (by decide) (by decide) (by decide) (by decide) (by decide) (by decide)
      (by decide)).1,
    by decide⟩

/-- Alice says " hi ": Bob is sent "hi" from "Alice", Alice is sent nothing. -/
theorem jsonReceived_chat_message_witness :
    (Reachable asciiEnv lobby ∧ lobby.userName 1 ≠ "" ∧
        QJsonObject.value (messageDoc " hi ") "type" = QJsonValue.string "message" ∧
        equalsCI asciiEnv "message" "message" = true ∧
        QJsonObject.value (messageDoc " hi ") "text" = QJsonValue.string " hi " ∧
        trimmed " hi " ≠ "") ∧
      inbox (jsonReceived asciiEnv lobby 1 (messageDoc " hi ")).2 2 =
        [[("type", QJsonValue.string "message"), ("text", QJsonValue.string "hi"),
          ("sender", QJsonValue.string "Alice")]] ∧
      inbox (jsonReceived asciiEnv lobby 1 (messageDoc " hi ")).2 1 = [] :=
  ⟨⟨reachable_runTrace asciiEnv _ _ Reachable.init (by decide), by decide, by decide, by decide,
      by decide, by decide⟩,
    ((jsonReceived_chat_message asciiEnv lobby 1 (messageDoc " hi ") "message" " hi "
      (reachable_runTrace asciiEnv _ _ Reachable.init (by decide)) (by decide) (by decide)
      (by decide) (by decide) (by decide)).2.1 2 (by decide) (by decide)).trans (by decide),
    (jsonReceived_chat_message asciiEnv lobby 1 (messageDoc " hi ") "message" " hi "
      (reachable_runTrace asciiEnv _ _ Reachable.init (by decide)) (by decide) (by decide)
      (by decide) (by decide) (by decide)).2.2.1⟩

/-- A connected client that has not logged in sends an answer: nothing
happens. -/
theorem jsonReceived_loggedOut_ignored_witness :
    (lobbyWithGuest.userName 3 = "" ∧
        QJsonObject.value (answerDoc "7") "type" = QJsonValue.string "answer" ∧
        (equalsCI asciiEnv "answer" "message" = true ∨
          equalsCI asciiEnv "answer" "answer" = true)) ∧
      jsonReceived asciiEnv lobbyWithGuest 3 (answerDoc "7") = (lobbyWithGuest, []) :=
  ⟨by decide,
    jsonReceived_loggedOut_ignored asciiEnv lobbyWithGuest 3 (answerDoc "7") "answer"
      (by decide) (by decide) (by decide)⟩

/-- The round expects "7"; Alice answered "7" and Bob "8": the next tick
sends Alice true and Bob false, each followed by the new question. -/
theorem automaticSendQuestion_grades_witness :
    (Reachable asciiEnv quizAnswered ∧ quizAnswered.m_answer ≠ "NAN" ∧
        1 ∈ quizAnswered.m_clients ∧ 2 ∈ quizAnswered.m_clients) ∧
      inbox (automaticSendQuestion quizAnswered 0 0 0 0 0).2 1 =
        [[("type", QJsonValue.string "result"), ("result", QJsonValue.bool true)],
          [("type", QJsonValue.string "questionarrive"),
            ("question", QJsonValue.string "? + 1 + 1 * 1 = 3")]] ∧
      inbox (automaticSendQuestion quizAnswered 0 0 0 0 0).2 2 =
        [[("type", QJsonValue.string "result"), ("result", QJsonValue.bool false)],
          [("type", QJsonValue.string "questionarrive"),
            ("question", QJsonValue.string "? + 1 + 1 * 1 = 3")]] :=
  ⟨⟨reachable_runTrace asciiEnv _ _ Reachable.init (by decide), by decide, by decide, by decide⟩,
    (automaticSendQuestion_grades asciiEnv quizAnswered 0 0 0 0 0 1
      (reachable_runTrace asciiEnv _ _ Reachable.init (by decide)) (by decide)
      (by decide)).trans (by decide),
    (automaticSendQuestion_grades asciiEnv quizAnswered 0 0 0 0 0 2
      (reachable_runTrace asciiEnv _ _ Reachable.init (by decide)) (by decide)
      (by decide)).trans (by decide)⟩

/-- A round expecting "7" is issued; Bob answers, Alice only chats: at the next
tick Alice is graded on the empty lastAnswer she held, so false. -/
theorem unanswered_round_graded_on_stored_answer_witness :
    (Reachable asciiEnv lobby ∧
        validTrace asciiEnv (automaticSendQuestion lobby 1356305462 0 0 0 0).1
          [Event.jsonReceived 2 (answerDoc "7"), Event.jsonReceived 1 (messageDoc "hello")]
          = true ∧
        (∀ e ∈ [Event.jsonReceived 2 (answerDoc "7"), Event.jsonReceived 1 (messageDoc "hello")],
          Event.leavesAnswerOf asciiEnv 1 e = true) ∧
        1 ∈ (runTrace asciiEnv (automaticSendQuestion lobby 1356305462 0 0 0 0).1
          [Event.jsonReceived 2 (answerDoc "7"),
            Event.jsonReceived 1 (messageDoc "hello")]).m_clients) ∧
      inbox (automaticSendQuestion
          (runTrace asciiEnv (automaticSendQuestion lobby 1356305462 0 0 0 0).1
            [Event.jsonReceived 2 (answerDoc "7"), Event.jsonReceived 1 (messageDoc "hello")])
          0 0 0 0 0).2 1 =
        [[("type", QJsonValue.string "result"), ("result", QJsonValue.bool false)],
          [("type", QJsonValue.string "questionarrive"),
            ("question", QJsonValue.string "? + 1 + 1 * 1 = 3")]] :=
  ⟨⟨reachable_runTrace asciiEnv _ _ Reachable.init (by decide), by decide, by decide, by decide⟩,
    (unanswered_round_graded_on_stored_answer asciiEnv lobby 1356305462 0 0 0 0 0 0 0 0 0 1
      [Event.jsonReceived 2 (answerDoc "7"), Event.jsonReceived 1 (messageDoc "hello")]
      (reachable_runTrace asciiEnv _ _ Reachable.init (by decide)) (by decide) (by decide)
      (by decide)).trans (by decide)⟩

/-! ## Malformed messages, answers, disconnects and errors -/

/-- A message whose type is missing or is not a string is ignored in either
state. -/
theorem jsonReceived_bad_type_ignored (env : Env) (s : ChatServer) (sender : Nat)
    (doc : QJsonObject) (htype : (doc.value "type").isString = false) :
    jsonReceived env s sender doc = (s, []) := by
  unfold jsonReceived
  split <;> simp [jsonFromLoggedOut, jsonFromLoggedIn, htype]

/-- A login whose username is missing or is not a string is ignored in either
state. -/
theorem jsonReceived_bad_username_ignored (env : Env) (s : ChatServer) (sender : Nat)
    (doc : QJsonObject) (t : String) (htype : doc.value "type" = QJsonValue.string t)
    (hlogin : equalsCI env t "login" = true)
    (hfield : (doc.value "username").isString = false) :
    jsonReceived env s sender doc = (s, []) := by
  have hm : equalsCI env t "message" = false := by
    rw [← Bool.not_eq_true]
    intro h
    have := equalsCI_login_false env t (Or.inl h)
    rw [hlogin] at this
    exact absurd this (by decide)
  have ha : equalsCI env t "answer" = false := by
    rw [← Bool.not_eq_true]
    intro h
    have := equalsCI_login_false env t (Or.inr h)
    rw [hlogin] at this
    exact absurd this (by decide)
  have h1 : (QJsonValue.string t).isString = true := rfl
  have h2 : (QJsonValue.string t).isNull = false := rfl
  have h3 : (QJsonValue.string t).toString = t := rfl
  unfold jsonReceived
  split
  · simp [jsonFromLoggedOut, htype, hfield, h1, h2, h3, hlogin]
  · simp [jsonFromLoggedIn, htype, h1, h2, h3, hm, ha]

/-- A chat message whose text is missing or is not a string is ignored in
either state. -/
theorem jsonReceived_bad_text_ignored (env : Env) (s : ChatServer) (sender : Nat)
    (doc : QJsonObject) (t : String) (htype : doc.value "type" = QJsonValue.string t)
    (hmsg : equalsCI env t "message" = true)
    (hfield : (doc.value "text").isString = false) :
    jsonReceived env s sender doc = (s, []) := by
  have hl := equalsCI_login_false env t (Or.inl hmsg)
  have h1 : (QJsonValue.string t).isString = true := rfl
  have h2 : (QJsonValue.string t).isNull = false := rfl
  have h3 : (QJsonValue.string t).toString = t := rfl
  unfold jsonReceived
  split
  · simp [jsonFromLoggedOut, htype, h1, h2, h3, hl]
  · simp [jsonFromLoggedIn, htype, hfield, h1, h2, h3, hmsg]

/-- C11, the code at the failing input: Alice has answered "7", the expected
answer of the running round. She then sends an answer message that has no
answer field, and one whose answer is a number instead of a string: each
overwrites her lastAnswer with the empty string, and the next tick grades her
incorrect. -/
theorem answer_without_string_overwrites :
    validTrace asciiEnv (initialServer asciiEnv)
        (aliceAndBob ++ [tickSeven, Event.jsonReceived 1 (answerDoc "7"),
          Event.jsonReceived 2 (answerDoc "8"),
          Event.jsonReceived 1 [("type", QJsonValue.string "answer")]]) = true ∧
      quizAnswered.lastAnswer 1 = "7" ∧
      (jsonReceived asciiEnv quizAnswered 1 [("type", QJsonValue.string "answer")]).1.lastAnswer 1
        = "" ∧
      (jsonReceived asciiEnv quizAnswered 1
        [("type", QJsonValue.string "answer"), ("answer", QJsonValue.double)]).1.lastAnswer 1
        = "" ∧
      inbox (automaticSendQuestion
          (jsonReceived asciiEnv quizAnswered 1 [("type", QJsonValue.string "answer")]).1
          0 0 0 0 0).2 1 =
        [[("type", QJsonValue.string "result"), ("result", QJsonValue.bool false)],
          [("type", QJsonValue.string "questionarrive"),
            ("question", QJsonValue.string "? + 1 + 1 * 1 = 3")]] := by
  decide

/-- C12: when a session with a non-empty userName sends a message of type
"answer" whose answer field is the string `a`, its lastAnswer becomes `a`
with the white space trimmed from both ends, nothing is sent to anyone, and
nothing else changes: every userName, every other lastAnswer, the registry
and m_answer stay as they were. -/
theorem jsonReceived_answer_stored (env : Env) (s : ChatServer) (sender : Nat)
    (doc : QJsonObject) (t a : String) (hname : s.userName sender ≠ "")
    (htype : doc.value "type" = QJsonValue.string t) (hans : equalsCI env t "answer" = true)
    (hfield : doc.value "answer" = QJsonValue.string a) :
    (jsonReceived env s sender doc).2 = [] ∧
      (jsonReceived env s sender doc).1.lastAnswer sender = trimmed a ∧
      (∀ w, w ≠ sender → (jsonReceived env s sender doc).1.lastAnswer w = s.lastAnswer w) ∧
      (jsonReceived env s sender doc).1.userName = s.userName ∧
      (jsonReceived env s sender doc).1.m_clients = s.m_clients ∧
      (jsonReceived env s sender doc).1.m_answer = s.m_answer := by
  have hm := equalsCI_message_false env t hans
  have hrun : jsonReceived env s sender doc =
      ({ s with lastAnswer := Function.update s.lastAnswer sender (trimmed a) }, []) := by
    simp [jsonReceived, hname, jsonFromLoggedIn, htype, hfield, QJsonValue.isNull,
      QJsonValue.isString, QJsonValue.toString, hm, hans]
  rw [hrun]
  refine ⟨rfl, by simp, ?_, rfl, rfl, rfl⟩
  intro w hw
  simp [Function.update, hw]

/-- C13: in a registry that holds each session once, userDisconnected removes
the session and keeps the others in order; when the userName of the session
is non-empty every remaining registered session is sent exactly one
userdisconnected message with that name and the session itself is sent
nothing; when it is empty nothing is sent at all. The fields of the workers
and m_answer are untouched, and removing the session again leaves the
registry as it is. -/
theorem userDisconnected_effects (s : ChatServer) (sender : Nat) (hnd : s.m_clients.Nodup) :
    (userDisconnected s sender).1.m_clients = s.m_clients.filter (fun w => w != sender) ∧
      sender ∉ (userDisconnected s sender).1.m_clients ∧
      (∀ w, w ≠ sender → (w ∈ (userDisconnected s sender).1.m_clients ↔ w ∈ s.m_clients)) ∧
      (s.userName sender ≠ "" →
        (∀ w ∈ s.m_clients, w ≠ sender →
          inbox (userDisconnected s sender).2 w =
            [[("type", QJsonValue.string "userdisconnected"),
              ("username", QJsonValue.string (s.userName sender))]]) ∧
        inbox (userDisconnected s sender).2 sender = []) ∧
      (s.userName sender = "" → (userDisconnected s sender).2 = []) ∧
      ((userDisconnected s sender).1.userName = s.userName ∧
        (userDisconnected s sender).1.lastAnswer = s.lastAnswer ∧
        (userDisconnected s sender).1.m_answer = s.m_answer) ∧
      (userDisconnected (userDisconnected s sender).1 sender).1.m_clients
        = (userDisconnected s sender).1.m_clients := by
  have hst : (userDisconnected s sender).1 =
      { s with m_clients := s.m_clients.filter (fun w => w != sender) } := by
    unfold userDisconnected
    simp only
    split <;> rfl
  have hmsg : userDisconnectedMessage (s.userName sender) =
      [("type", QJsonValue.string "userdisconnected"),
        ("username", QJsonValue.string (s.userName sender))] := by
    simp [userDisconnectedMessage, QJsonObject.set, QJsonObject.empty]
  have hnot : sender ∉ s.m_clients.filter (fun w => w != sender) := by
    simp [List.mem_filter]
  refine ⟨by rw [hst], by rw [hst]; exact hnot, ?_, ?_, ?_, ?_, ?_⟩
  · intro w hw
    rw [hst]
    simp [List.mem_filter, hw]
  · intro hname
    have hout : (userDisconnected s sender).2 =
        broadcast (s.m_clients.filter (fun w => w != sender))
          (userDisconnectedMessage (s.userName sender)) none := by
      simp [userDisconnected, hname]
    rw [hout]
    refine ⟨?_, inbox_broadcast_not_mem _ _ _ _ hnot⟩
    intro w hw hws
    have hmem : w ∈ s.m_clients.filter (fun w => w != sender) := by
      simp [List.mem_filter, hw, hws]
    rw [inbox_broadcast_mem _ _ _ _ (hnd.filter _) hmem (by simp), hmsg]
  · intro hname
    simp [userDisconnected, hname]
  · rw [hst]
    exact ⟨rfl, rfl, rfl⟩
  · have h2 : ∀ s2 : ChatServer, (userDisconnected s2 sender).1.m_clients =
        s2.m_clients.filter (fun w => w != sender) := by
      intro s2
      unfold userDisconnected
      simp only
      split <;> rfl
    rw [h2, h2]
    simp [List.filter_filter]

/-- C14, the stated claim refuted: Alice is logged in and a transport error is
reported for her session; she is still registered afterwards and nothing has
been sent to anyone. -/
theorem userError_keeps_session :
    Event.enabled lobby (Event.userError 1) = true ∧ lobby.userName 1 = "Alice" ∧
      1 ∈ (step asciiEnv lobby (Event.userError 1)).1.m_clients ∧
      (step asciiEnv lobby (Event.userError 1)).2 = [] := by
  decide

/-- C14, amended: userError only logs. It sends nothing and leaves the
registry and every session as they are; the removal from the registry and
the departure notice are the work of userDisconnected, which does the same
after an error as without one. -/
theorem userError_only_logs (env : Env) (s : ChatServer) (sender : Nat) :
    step env s (Event.userError sender) = (s, []) ∧
      userError s sender = (s, []) ∧
      userDisconnected (userError s sender).1 sender = userDisconnected s sender :=
  ⟨rfl, rfl, rfl⟩

/-- Alice, logged in, answers " 42 ": her lastAnswer becomes "42" and nothing
is sent. -/
theorem jsonReceived_answer_stored_witness :
    (lobby.userName 1 ≠ "" ∧
        QJsonObject.value (answerDoc " 42 ") "type" = QJsonValue.string "answer" ∧
        equalsCI asciiEnv "answer" "answer" = true ∧
        QJsonObject.value (answerDoc " 42 ") "answer" = QJsonValue.string " 42 ") ∧
      (jsonReceived asciiEnv lobby 1 (answerDoc " 42 ")).2 = [] ∧
      (jsonReceived asciiEnv lobby 1 (answerDoc " 42 ")).1.lastAnswer 1 = "42" :=
  ⟨by decide,
    (jsonReceived_answer_stored asciiEnv lobby 1 (answerDoc " 42 ") "answer" " 42 " (by decide)
      (by decide) (by decide) (by decide)).1,
    (jsonReceived_answer_stored asciiEnv lobby 1 (answerDoc " 42 ") "answer" " 42 " (by decide)
      (by decide) (by decide) (by decide)).2.1.trans (by decide)⟩

/-- Alice disconnects from the lobby: Bob is told once, Alice is told
nothing and is no longer registered. -/
theorem userDisconnected_effects_witness :
    lobby.m_clients.Nodup ∧
      1 ∉ (userDisconnected lobby 1).1.m_clients ∧
      inbox (userDisconnected lobby 1).2 2 =
        [[("type", QJsonValue.string "userdisconnected"),
          ("username", QJsonValue.string "Alice")]] ∧
      inbox (userDisconnected lobby 1).2 1 = [] :=
  ⟨by decide, (userDisconnected_effects lobby 1 (by decide)).2.1,
    (((userDisconnected_effects lobby 1 (by decide)).2.2.2.1 (by decide)).1 2 (by decide)
      (by decide)).trans (by decide),
    ((userDisconnected_effects lobby 1 (by decide)).2.2.2.1 (by decide)).2⟩

/-! ## The userName of a session -/

theorem mem_broadcast (cs : List Nat) (m : QJsonObject) (ex : Option Nat) (p : Nat × QJsonObject)
    (h : p ∈ broadcast cs m ex) : some p.1 ≠ ex ∧ p.2 = m ∧ p.1 ∈ cs := by
  induction cs with
  | nil => simp [broadcast] at h
  | cons c cs ih =>
    unfold broadcast at h
    split at h
    · obtain ⟨h1, h2, h3⟩ := ih h
      exact ⟨h1, h2, List.mem_cons_of_mem _ h3⟩
    · rename_i hc
      simp only [sendJson, List.singleton_append, List.mem_cons] at h
      rcases h with rfl | h
      · exact ⟨hc, rfl, List.mem_cons_self _ _⟩
      · obtain ⟨h1, h2, h3⟩ := ih h
        exact ⟨h1, h2, List.mem_cons_of_mem _ h3⟩

/-- What a logged in sender causes: the userNames stay, and what is sent is
nothing or one broadcast that leaves the sender out. -/
theorem jsonFromLoggedIn_outbox (env : Env) (s : ChatServer) (sender : Nat) (doc : QJsonObject) :
    (jsonFromLoggedIn env s sender doc).2 = [] ∨
      ∃ m, (jsonFromLoggedIn env s sender doc).2 = broadcast s.m_clients m (some sender) := by
  unfold jsonFromLoggedIn
  simp only
  split_ifs
  · exact Or.inl rfl
  · exact Or.inl rfl
  · exact Or.inl rfl
  · exact Or.inr ⟨_, rfl⟩
  · exact Or.inl rfl
  · exact Or.inl rfl

/-- What a logged out sender causes: nothing changes and it is sent nothing or
the failure reply, or its userName becomes a non-empty name and it is sent
the success reply before the others are told. -/
theorem jsonFromLoggedOut_cases (env : Env) (s : ChatServer) (sender : Nat)
    (doc : QJsonObject) :
    ((jsonFromLoggedOut env s sender doc).1 = s ∧
        ((jsonFromLoggedOut env s sender doc).2 = [] ∨
          (jsonFromLoggedOut env s sender doc).2 = [(sender, loginFailureMessage)])) ∨
      ((jsonFromLoggedOut env s sender doc).1.userName sender ≠ "" ∧
        (sender, loginSuccessMessage) ∈ (jsonFromLoggedOut env s sender doc).2) := by
  unfold jsonFromLoggedOut
  simp only
  split_ifs with h1 h2 h3 h4 h5
  · exact Or.inl ⟨rfl, Or.inl rfl⟩
  · exact Or.inl ⟨rfl, Or.inl rfl⟩
  · exact Or.inl ⟨rfl, Or.inl rfl⟩
  · exact Or.inl ⟨rfl, Or.inl rfl⟩
  · exact Or.inl ⟨rfl, Or.inr rfl⟩
  · right
    simp only [Function.update_same]
    exact ⟨h4, by simp [sendJson]⟩

theorem step_loginRecord (env : Env) (s : ChatServer) (e : Event) (done : Nat → Bool)
    (h : ∀ w, s.userName w = "" ↔ done w = false) :
    ∀ w, (step env s e).1.userName w = "" ↔ loginRecord env s done e w = false := by
  cases e with
  | incomingConnection v ok =>
    cases ok
    · exact h
    · intro w
      by_cases hw : w = v
      · subst hw
        simp [step, incomingConnection, loginRecord]
      · simp [step, incomingConnection, loginRecord, Function.update, hw, h w]
  | jsonReceived v doc =>
    intro w
    simp only [step, loginRecord]
    unfold jsonReceived
    by_cases hv : s.userName v = ""
    · simp only [hv, if_true]
      obtain ⟨-, -, -, hframe⟩ := jsonFromLoggedOut_frame env s v doc
      rcases jsonFromLoggedOut_cases env s v doc with ⟨hs, hout⟩ | ⟨hname, hmem⟩
      · have hno : (v, loginSuccessMessage) ∉ (jsonFromLoggedOut env s v doc).2 := by
          rcases hout with hout | hout
          · rw [hout]; simp
          · rw [hout]
            simp only [List.mem_singleton, Prod.mk.injEq, true_and]
            decide
        rw [if_neg hno, hs]
        exact h w
      · rw [if_pos hmem]
        by_cases hw : w = v
        · subst hw
          simp [hname]
        · rw [hframe w hw]
          simp [Function.update, hw, h w]
    · simp only [hv, if_false]
      obtain ⟨-, -, hun, -⟩ := jsonFromLoggedIn_frame env s v doc
      have hno : (v, loginSuccessMessage) ∉ (jsonFromLoggedIn env s v doc).2 := by
        rcases jsonFromLoggedIn_outbox env s v doc with hout | ⟨m, hout⟩
        · rw [hout]; simp
        · rw [hout]
          intro hmem
          exact (mem_broadcast _ _ _ _ hmem).1 rfl
      rw [if_neg hno, hun]
      exact h w
  | userDisconnected v =>
    intro w
    simp only [step, userDisconnected, loginRecord]
    split <;> exact h w
  | userError v => exact h
  | automaticSendQuestion g0 g1 g2 g3 g4 => exact h

theorem runTrace_completedLogin (env : Env) (es : List Event) :
    ∀ (s : ChatServer) (done : Nat → Bool), (∀ w, s.userName w = "" ↔ done w = false) →
      ∀ w, (runTrace env s es).userName w = "" ↔ completedLogin env s es done w = false := by
  induction es with
  | nil => intro s done h; exact h
  | cons e es ih =>
    intro s done h
    exact ih _ _ (step_loginRecord env s e done h)

/-- C15: a userName, once set, is never changed by its session: whatever
message a session with a non-empty userName sends, every userName stays as it
is; and unless the type of the message is a string equal to "message"
case-insensitively (so for a further login and for every unrecognised type)
nothing is sent to anyone. Consequently, after every sequence of events from
the constructed server, the userName of a worker is empty exactly when the
worker has not completed a successful login, that is, when the server has not
sent it the success reply since it was constructed. -/
theorem userName_immutable (env : Env) :
    (∀ (s : ChatServer) (sender : Nat) (doc : QJsonObject), s.userName sender ≠ "" →
        (jsonReceived env s sender doc).1.userName = s.userName) ∧
      (∀ (s : ChatServer) (sender : Nat) (doc : QJsonObject), s.userName sender ≠ "" →
        (∀ t, doc.value "type" = QJsonValue.string t → equalsCI env t "message" = false) →
        (jsonReceived env s sender doc).2 = []) ∧
      (∀ (es : List Event) (w : Nat),
        (runTrace env (initialServer env) es).userName w = "" ↔
          completedLogin env (initialServer env) es (fun _ => false) w = false) := by
  refine ⟨?_, ?_, ?_⟩
  · intro s sender doc hname
    simp only [jsonReceived, hname, if_false]
    exact (jsonFromLoggedIn_frame env s sender doc).2.2.1
  · intro s sender doc hname htype
    simp only [jsonReceived, hname, if_false]
    cases hv : doc.value "type" with
    | string t =>
      have hm := htype t hv
      simp only [jsonFromLoggedIn, hv, QJsonValue.isNull, QJsonValue.isString,
        QJsonValue.toString, hm]
      simp only [Bool.not_true, Bool.or_self, Bool.false_eq_true, if_false]
      split <;> rfl
    | _ => simp [jsonFromLoggedIn, hv, QJsonValue.isNull, QJsonValue.isString]
  · intro es w
    exact runTrace_completedLogin env es (initialServer env) (fun _ => false)
      (fun w => by simp [initialServer]) w

/-- Alice, logged in, asks to log in as "Eve": her name stays and nothing is
sent; in the lobby with a guest, worker 3 has an empty userName and has not
completed a login, Alice has a name and has completed one. -/
theorem userName_immutable_witness :
    (lobby.userName 1 ≠ "" ∧
        ∀ t, QJsonObject.value (loginDoc "Eve") "type" = QJsonValue.string t →
          equalsCI asciiEnv t "message" = false) ∧
      (jsonReceived asciiEnv lobby 1 (loginDoc "Eve")).1.userName 1 = "Alice" ∧
      (jsonReceived asciiEnv lobby 1 (loginDoc "Eve")).2 = [] ∧
      ((runTrace asciiEnv (initialServer asciiEnv)
            (aliceAndBob ++ [Event.incomingConnection 3 true])).userName 3 = "" ↔
        completedLogin asciiEnv (initialServer asciiEnv)
          (aliceAndBob ++ [Event.incomingConnection 3 true]) (fun _ => false) 3 = false) ∧
      completedLogin asciiEnv (initialServer asciiEnv)
        (aliceAndBob ++ [Event.incomingConnection 3 true]) (fun _ => false) 1 = true :=
  ⟨⟨by decide, fun t ht => by
      have : t = "login" := by
        have h2 : QJsonObject.value (loginDoc "Eve") "type" = QJsonValue.string "login" := by
          decide
        rw [h2] at ht
        exact (QJsonValue.string.inj ht).symm
      rw [this]
      decide⟩,
    (congrFun ((userName_immutable asciiEnv).1 lobby 1 (loginDoc "Eve") (by decide)) 1).trans
      (by decide),
    (userName_immutable asciiEnv).2.1 lobby 1 (loginDoc "Eve") (by decide) (fun t ht => by
      have : t = "login" := by
        have h2 : QJsonObject.value (loginDoc "Eve") "type" = QJsonValue.string "login" := by
          decide
        rw [h2] at ht
        exact (QJsonValue.string.inj ht).symm
      rw [this]
      decide),
    (userName_immutable asciiEnv).2.2 (aliceAndBob ++ [Event.incomingConnection 3 true]) 3,
    by decide⟩

/-! ## The first tick and the later ones -/

/-- The expected answer of a generated round is the decimal string of a
positive integer. -/
theorem getQuestion_answer_pos (g0 g1 g2 g3 g4 : Nat) :
    ∃ v : Int, 0 < v ∧ (getQuestion g0 g1 g2 g3 g4).1 = number v := by
  obtain ⟨a, b, c, d, harr, ha, hb, hc, hd, he⟩ := roundValues_eq g0 g1 g2 g3
  have hm := maskIndex_lt g4
  refine ⟨(roundValues g0 g1 g2 g3).getD (maskIndex g4) 0, ?_, rfl⟩
  rw [harr]
  generalize maskIndex g4 = m at hm
  interval_cases m <;> simp <;> omega

theorem step_m_answer_of_not_tick (env : Env) (s : ChatServer) (e : Event)
    (h : e.isTick = false) : (step env s e).1.m_answer = s.m_answer := by
  cases e with
  | incomingConnection v ok => cases ok <;> rfl
  | jsonReceived v doc =>
    simp only [step, jsonReceived]
    split
    · exact (jsonFromLoggedOut_frame env s v doc).2.1
    · exact (jsonFromLoggedIn_frame env s v doc).2.1
  | userDisconnected v =>
    simp only [step, userDisconnected]
    split <;> rfl
  | userError v => rfl
  | automaticSendQuestion g0 g1 g2 g3 g4 => simp [Event.isTick] at h

theorem step_m_answer_pos (env : Env) (s : ChatServer) (e : Event)
    (h : ∃ v : Int, 0 < v ∧ s.m_answer = number v) :
    ∃ v : Int, 0 < v ∧ (step env s e).1.m_answer = number v := by
  by_cases ht : e.isTick = true
  · cases e with
    | automaticSendQuestion g0 g1 g2 g3 g4 => exact getQuestion_answer_pos g0 g1 g2 g3 g4
    | _ => simp [Event.isTick] at ht
  · rw [step_m_answer_of_not_tick env s e (by simpa using ht)]
    exact h

theorem runTrace_m_answer_pos (env : Env) (es : List Event) : ∀ (s : ChatServer),
    (∃ v : Int, 0 < v ∧ s.m_answer = number v) →
    ∃ v : Int, 0 < v ∧ (runTrace env s es).m_answer = number v := by
  induction es with
  | nil => intro s h; exact h
  | cons e es ih => intro s h; exact ih _ (step_m_answer_pos env s e h)

theorem runTrace_m_answer_of_no_tick (env : Env) (es : List Event) : ∀ (s : ChatServer),
    es.any Event.isTick = false → (runTrace env s es).m_answer = s.m_answer := by
  induction es with
  | nil => intro s _; rfl
  | cons e es ih =>
    intro s h
    simp only [List.any_cons, Bool.or_eq_false_iff] at h
    simp only [runTrace]
    rw [ih _ h.2, step_m_answer_of_not_tick env s e h.1]

theorem runTrace_m_answer_of_tick (env : Env) (es : List Event) : ∀ (s : ChatServer),
    es.any Event.isTick = true → ∃ v : Int, 0 < v ∧ (runTrace env s es).m_answer = number v := by
  induction es with
  | nil => intro s h; simp at h
  | cons e es ih =>
    intro s h
    by_cases ht : e.isTick = true
    · cases e with
      | automaticSendQuestion g0 g1 g2 g3 g4 =>
        exact runTrace_m_answer_pos env es _ (getQuestion_answer_pos g0 g1 g2 g3 g4)
      | _ => simp [Event.isTick] at ht
    · simp only [List.any_cons, Bool.or_eq_true] at h
      rcases h with h | h
      · exact absurd h ht
      · exact ih _ h

/-- C16: grading is skipped on the first tick and only then. On a tick taken
while m_answer is the sentinel "NAN" (registry holding each session once)
every message sent is the questionarrive message, and every registered
session is sent exactly that one message. After any tick m_answer is the
decimal string of a positive integer, hence not the sentinel. And after a
valid sequence of events from the constructed server, m_answer is "NAN" as
long as no tick has occurred, while once a tick has occurred m_answer is not
"NAN" and the next tick sends every registered session its result message
first and the new question second. -/
theorem grading_skipped_on_first_tick_only (env : Env) :
    (∀ (s : ChatServer) (g0 g1 g2 g3 g4 : Nat), s.m_clients.Nodup → s.m_answer = "NAN" →
        (∀ p ∈ (automaticSendQuestion s g0 g1 g2 g3 g4).2,
          p.2 = [("type", QJsonValue.string "questionarrive"),
            ("question", QJsonValue.string (getQuestion g0 g1 g2 g3 g4).2)]) ∧
        ∀ w ∈ s.m_clients, inbox (automaticSendQuestion s g0 g1 g2 g3 g4).2 w =
          [[("type", QJsonValue.string "questionarrive"),
            ("question", QJsonValue.string (getQuestion g0 g1 g2 g3 g4).2)]]) ∧
      (∀ (s : ChatServer) (g0 g1 g2 g3 g4 : Nat),
        (∃ v : Int, 0 < v ∧ (automaticSendQuestion s g0 g1 g2 g3 g4).1.m_answer = number v) ∧
          (automaticSendQuestion s g0 g1 g2 g3 g4).1.m_answer ≠ "NAN") ∧
      (∀ (es : List Event), validTrace env (initialServer env) es = true →
        (es.any Event.isTick = false →
          (runTrace env (initialServer env) es).m_answer = "NAN") ∧
        (es.any Event.isTick = true →
          (runTrace env (initialServer env) es).m_answer ≠ "NAN" ∧
          ∀ (h0 h1 h2 h3 h4 : Nat), ∀ w ∈ (runTrace env (initialServer env) es).m_clients,
            inbox (automaticSendQuestion (runTrace env (initialServer env) es)
                h0 h1 h2 h3 h4).2 w =
              [[("type", QJsonValue.string "result"),
                  ("result", QJsonValue.bool (decide
                    ((runTrace env (initialServer env) es).lastAnswer w
                      = (runTrace env (initialServer env) es).m_answer)))],
                [("type", QJsonValue.string "questionarrive"),
                  ("question", QJsonValue.string (getQuestion h0 h1 h2 h3 h4).2)]])) := by
  refine ⟨?_, ?_, ?_⟩
  · intro s g0 g1 g2 g3 g4 hnd hnan
    have hq : questionMessage (getQuestion g0 g1 g2 g3 g4).2 =
        [("type", QJsonValue.string "questionarrive"),
          ("question", QJsonValue.string (getQuestion g0 g1 g2 g3 g4).2)] := by
      simp [questionMessage, QJsonObject.set, QJsonObject.empty]
    have hout : (automaticSendQuestion s g0 g1 g2 g3 g4).2 =
        broadcast s.m_clients (questionMessage (getQuestion g0 g1 g2 g3 g4).2) none := by
      simp [automaticSendQuestion, hnan]
    rw [hout]
    refine ⟨?_, ?_⟩
    · intro p hp
      rw [(mem_broadcast _ _ _ _ hp).2.1, hq]
    · intro w hw
      rw [inbox_broadcast_mem _ _ _ _ hnd hw (by simp), hq]
  · intro s g0 g1 g2 g3 g4
    have hpos := getQuestion_answer_pos g0 g1 g2 g3 g4
    refine ⟨hpos, ?_⟩
    obtain ⟨v, -, hv⟩ := hpos
    show (getQuestion g0 g1 g2 g3 g4).1 ≠ "NAN"
    rw [hv]
    exact number_ne_NAN v
  · intro es hv
    refine ⟨?_, ?_⟩
    · intro hno
      rw [runTrace_m_answer_of_no_tick env es _ hno]
      rfl
    · intro htick
      obtain ⟨v, -, hval⟩ := runTrace_m_answer_of_tick env es (initialServer env) htick
      have hne : (runTrace env (initialServer env) es).m_answer ≠ "NAN" := by
        rw [hval]
        exact number_ne_NAN v
      refine ⟨hne, ?_⟩
      intro h0 h1 h2 h3 h4 w hw
      have hr := reachable_runTrace env es _ Reachable.init hv
      exact inbox_automaticSendQuestion _ h0 h1 h2 h3 h4 w (reachable_nodup env _ hr) hne hw

/-- The first tick in the lobby sends Alice the question alone; the tick after
the answered round sends her the result and then the question. -/
theorem grading_skipped_on_first_tick_only_witness :
    (lobby.m_clients.Nodup ∧ lobby.m_answer = "NAN" ∧ 1 ∈ lobby.m_clients) ∧
      inbox (automaticSendQuestion lobby 1356305462 0 0 0 0).2 1 =
        [[("type", QJsonValue.string "questionarrive"),
          ("question", QJsonValue.string "? + 1 + 1 * 1 = 9")]] ∧
      (validTrace asciiEnv (initialServer asciiEnv)
            (aliceAndBob ++ [tickSeven, Event.jsonReceived 1 (answerDoc "7"),
              Event.jsonReceived 2 (answerDoc "8")]) = true ∧
          (aliceAndBob ++ [tickSeven, Event.jsonReceived 1 (answerDoc "7"),
            Event.jsonReceived 2 (answerDoc "8")]).any Event.isTick = true ∧
          1 ∈ quizAnswered.m_clients) ∧
      inbox (automaticSendQuestion quizAnswered 0 0 0 0 0).2 1 =
        [[("type", QJsonValue.string "result"), ("result", QJsonValue.bool true)],
          [("type", QJsonValue.string "questionarrive"),
            ("question", QJsonValue.string "? + 1 + 1 * 1 = 3")]] :=
  ⟨by decide,
    (((grading_skipped_on_first_tick_only asciiEnv).1 lobby 1356305462 0 0 0 0 (by decide)
      (by decide)).2 1 (by decide)).trans (by decide),
    by decide,
    ((((grading_skipped_on_first_tick_only asciiEnv).2.2
      (aliceAndBob ++ [tickSeven, Event.jsonReceived 1 (answerDoc "7"),
        Event.jsonReceived 2 (answerDoc "8")]) (by decide)).2 (by decide)).2 0 0 0 0 0 1
      (by decide)).trans (by decide)⟩

/-! ## The range of the draws and the round arithmetic -/

/-- The array of a round, slot by slot. -/
theorem roundValues_slots (g0 g1 g2 g3 : Nat) :
    roundValues g0 g1 g2 g3 = [bounded 1 20 g0, bounded 1 20 g1, bounded 1 20 g2,
      bounded 1 20 g3,
      roundSum (bounded 1 20 g0) (bounded 1 20 g1) (bounded 1 20 g2) (bounded 1 20 g3)] := by
  unfold roundValues roundSum
  exact Eq.refl _

/-- The array of a round whose four draws are known. -/
theorem roundValues_of_draws (g0 g1 g2 g3 : Nat) (a b c d : Int) (e0 : bounded 1 20 g0 = a)
    (e1 : bounded 1 20 g1 = b) (e2 : bounded 1 20 g2 = c) (e3 : bounded 1 20 g3 = d) :
    roundValues g0 g1 g2 g3 = [a, b, c, d, roundSum a b c d] := by
  rw [roundValues_slots, e0, e1, e2, e3]

/-- C17, the stated claim refuted: no outcome of the generator gives any of
the four base slots the value 20. -/
theorem twenty_never_drawn :
    ¬ ∃ g0 g1 g2 g3 i : Nat, i < 4 ∧ (roundValues g0 g1 g2 g3).getD i 0 = 20 := by
  rintro ⟨g0, g1, g2, g3, i, hi, h⟩
  obtain ⟨a, b, c, d, harr, ha, hb, hc, hd, -⟩ := roundValues_eq g0 g1 g2 g3
  rw [harr] at h
  rcases i with _ | _ | _ | _ | i
  · simp only [List.getD_cons_zero] at h
    omega
  · simp only [List.getD_cons_succ, List.getD_cons_zero] at h
    omega
  · simp only [List.getD_cons_succ, List.getD_cons_zero] at h
    omega
  · simp only [List.getD_cons_succ, List.getD_cons_zero] at h
    omega
  · omega

theorem bounded_one_twenty_onto (v : Int) (h1 : 1 ≤ v) (h19 : v ≤ 19) :
    bounded 1 20 (((v - 1).toNat * 4294967296 + 18) / 19) = v := by
  interval_cases v <;> decide

/-- C17, amended: the four base integers range over the whole of [1,19]. For
every integer v with 1 <= v <= 19 there is a generator word that
bounded(1, 20) turns into v, and getQuestion gives v to whichever of the
four base slots that word is drawn for. -/
theorem base_integers_cover (v : Int) (h1 : 1 ≤ v) (h19 : v ≤ 19) :
    ∃ g : Nat, bounded 1 20 g = v ∧
      ∀ x y z : Nat, (roundValues g x y z).getD 0 0 = v ∧ (roundValues x g y z).getD 1 0 = v ∧
        (roundValues x y g z).getD 2 0 = v ∧ (roundValues x y z g).getD 3 0 = v := by
  have key := bounded_one_twenty_onto v h1 h19
  refine ⟨_, key, fun x y z => ?_⟩
  obtain ⟨a, ha⟩ : ∃ a, bounded 1 20 x = a := ⟨_, rfl⟩
  obtain ⟨b, hb⟩ : ∃ b, bounded 1 20 y = b := ⟨_, rfl⟩
  obtain ⟨c, hc⟩ : ∃ c, bounded 1 20 z = c := ⟨_, rfl⟩
  rw [roundValues_of_draws _ x y z v a b c key ha hb hc,
    roundValues_of_draws x _ y z a v b c ha key hb hc,
    roundValues_of_draws x y _ z a b v c ha hb key hc,
    roundValues_of_draws x y z _ a b c v ha hb hc key]
  exact ⟨rfl, rfl, rfl, rfl⟩

/-- Some generator word is drawn as 19, the largest base integer. -/
theorem base_integers_cover_witness :
    ((1 : Int) ≤ 19 ∧ (19 : Int) ≤ 19) ∧
      ∃ g : Nat, bounded 1 20 g = 19 ∧
        ∀ x y z : Nat, (roundValues g x y z).getD 0 0 = 19 ∧
          (roundValues x g y z).getD 1 0 = 19 ∧
          (roundValues x y g z).getD 2 0 = 19 ∧ (roundValues x y z g).getD 3 0 = 19 :=
  ⟨by decide, base_integers_cover 19 (by decide) (by decide)⟩

/-- C18: the round arithmetic cannot overflow. For base integers a, b, c, d
in [1,20] the exact value a + b + c*d lies in [3,440], the 32-bit computation
of getQuestion gives exactly that value, all five slot values are strictly
positive, and a round drawn with these base integers holds them and their
exact combination. -/
theorem round_arithmetic_exact (a b c d : Int) (ha : 1 ≤ a ∧ a ≤ 20) (hb : 1 ≤ b ∧ b ≤ 20)
    (hc : 1 ≤ c ∧ c ≤ 20) (hd : 1 ≤ d ∧ d ≤ 20) :
    (3 ≤ a + b + c * d ∧ a + b + c * d ≤ 440) ∧
      roundSum a b c d = a + b + c * d ∧
      (0 < a ∧ 0 < b ∧ 0 < c ∧ 0 < d ∧ 0 < roundSum a b c d) ∧
      ∀ g0 g1 g2 g3 : Nat, bounded 1 20 g0 = a → bounded 1 20 g1 = b → bounded 1 20 g2 = c →
        bounded 1 20 g3 = d → roundValues g0 g1 g2 g3 = [a, b, c, d, a + b + c * d] := by
  have h1 : 1 ≤ c * d := by nlinarith
  have h2 : c * d ≤ 400 := by nlinarith
  have hsum : roundSum a b c d = a + b + c * d := by
    unfold roundSum
    generalize c * d = p at *
    unfold wrapInt32
    omega
  refine ⟨⟨by omega, by omega⟩, hsum, ⟨by omega, by omega, by omega, by omega, by
    rw [hsum]; omega⟩, ?_⟩
  intro g0 g1 g2 g3 e0 e1 e2 e3
  rw [roundValues_of_draws g0 g1 g2 g3 a b c d e0 e1 e2 e3, hsum]

/-- The largest round, 20 + 20 + 20 * 20 = 440, and the round 5 + 3 + 7 * 2 = 22
are computed exactly. -/
theorem round_arithmetic_exact_witness :
    (((1 : Int) ≤ 20 ∧ (20 : Int) ≤ 20) ∧ ((1 : Int) ≤ 5 ∧ (5 : Int) ≤ 20) ∧
        ((1 : Int) ≤ 3 ∧ (3 : Int) ≤ 20) ∧ ((1 : Int) ≤ 7 ∧ (7 : Int) ≤ 20) ∧
        ((1 : Int) ≤ 2 ∧ (2 : Int) ≤ 20)) ∧
      roundSum 20 20 20 20 = 20 + 20 + 20 * 20 ∧ roundSum 5 3 7 2 = 5 + 3 + 7 * 2 ∧
      roundValues 904203642 452101821 1356305462 226050911 = [5, 3, 7, 2, 5 + 3 + 7 * 2] :=
  ⟨by decide,
    (round_arithmetic_exact 20 20 20 20 (by decide) (by decide) (by decide) (by decide)).2.1,
    (round_arithmetic_exact 5 3 7 2 (by decide) (by decide) (by decide) (by decide)).2.1,
    (round_arithmetic_exact 5 3 7 2 (by decide) (by decide) (by decide) (by decide)).2.2.2
      904203642 452101821 1356305462 226050911 (by decide) (by decide) (by decide) (by decide)⟩

/-! ## A question has one solution -/

theorem digitChar_value (k : Nat) (hk : k < 10) : (Nat.digitChar k).toNat - 48 = k := by
  interval_cases k <;> decide

theorem foldl_toDigitsCore (fuel : Nat) : ∀ (n : Nat) (ds : List Char), n < fuel →
    (Nat.toDigitsCore 10 fuel n ds).foldl (fun acc c => 10 * acc + (c.toNat - 48)) 0 =
      ds.foldl (fun acc c => 10 * acc + (c.toNat - 48)) n := by
  induction fuel with
  | zero => intro n ds h; omega
  | succ f ih =>
    intro n ds h
    have hd := digitChar_value (n % 10) (Nat.mod_lt _ (by norm_num))
    simp only [Nat.toDigitsCore]
    split
    · rename_i h0
      have hn : n % 10 = n := by omega
      simp only [List.foldl_cons, Nat.mul_zero, Nat.zero_add, hd]
      rw [hn]
    · rename_i h0
      have hlt : n / 10 < f := by omega
      rw [ih _ _ hlt]
      simp only [List.foldl_cons, hd]
      have : 10 * (n / 10) + n % 10 = n := by omega
      rw [this]

/-- Reading the decimal string of a natural number gives the number back. -/
theorem decimalValue_repr (n : Nat) : decimalValue (Nat.repr n).data = n := by
  simp only [decimalValue, Nat.repr, List.asString, Nat.toDigits]
  rw [foldl_toDigitsCore (n + 1) n [] (by omega)]
  rfl

theorem repr_injective (m n : Nat) (h : Nat.repr m = Nat.repr n) : m = n := by
  have := congrArg (fun s => decimalValue s.data) h
  simpa [decimalValue_repr] using this

theorem repr_no_minus (m : Nat) : '-' ∉ (Nat.repr m).data := by
  intro h
  simp only [Nat.repr, List.asString, Nat.toDigits] at h
  have := toDigitsCore_isDigit _ _ _ (by simp) _ h
  exact absurd this (by decide)

/-- Two integers with the same decimal string are equal. -/
theorem number_injective (x y : Int) (h : number x = number y) : x = y := by
  cases x with
  | ofNat m =>
    cases y with
    | ofNat n =>
      simp only [number] at h
      rw [repr_injective m n h]
    | negSucc n =>
      exfalso
      simp only [number] at h
      have hm : '-' ∈ (Nat.repr m).data := by
        rw [h]
        simp
      exact repr_no_minus m hm
  | negSucc m =>
    cases y with
    | ofNat n =>
      exfalso
      simp only [number] at h
      have hm : '-' ∈ (Nat.repr n).data := by
        rw [← h]
        simp
      exact repr_no_minus n hm
    | negSucc n =>
      simp only [number] at h
      have hd := congrArg String.data h
      simp only [String.data_append] at hd
      have hr : Nat.repr (m + 1) = Nat.repr (n + 1) := by
        apply String.ext
        exact List.append_cancel_left hd
      have := repr_injective _ _ hr
      have : m = n := by omega
      rw [this]

theorem number_eq_iff (x y : Int) : number x = number y ↔ x = y :=
  ⟨number_injective x y, fun h => by rw [h]⟩

/-- The equation with `x` in the masked slot holds exactly when `x` is the
true value of that slot. -/
theorem equationHolds_set_iff (a b c d x : Int) (hc : 1 ≤ c) (hd : 1 ≤ d) (m : Nat)
    (hm : m < 5) :
    equationHolds ([a, b, c, d, a + b + c * d].set m x) ↔
      x = [a, b, c, d, a + b + c * d].getD m 0 := by
  have hc0 : c ≠ 0 := by omega
  have hd0 : d ≠ 0 := by omega
  interval_cases m
  · simp only [equationHolds, List.set, List.getD_cons_succ, List.getD_cons_zero]
    constructor <;> intro h <;> omega
  · simp only [equationHolds, List.set, List.getD_cons_succ, List.getD_cons_zero]
    constructor <;> intro h <;> omega
  · simp only [equationHolds, List.set, List.getD_cons_succ, List.getD_cons_zero]
    constructor
    · intro h
      have h2 : x * d = c * d := by omega
      exact mul_right_cancel₀ hd0 h2
    · intro h
      rw [h]
  · simp only [equationHolds, List.set, List.getD_cons_succ, List.getD_cons_zero]
    constructor
    · intro h
      have h2 : c * x = c * d := by omega
      exact mul_left_cancel₀ hc0 h2
    · intro h
      rw [h]
  · simp only [equationHolds, List.set, List.getD_cons_succ, List.getD_cons_zero]
    constructor <;> intro h <;> omega

/-- C19: every generated question has exactly one integer solution, and it is
the expected answer. For every outcome of the draws and every integer x, the
equation s0 + s1 + s2 * s3 = s4 with x put in the masked slot holds exactly
when the decimal string of x is m_answer; and exactly one integer makes it
hold. -/
theorem question_has_one_solution (g0 g1 g2 g3 g4 : Nat) :
    (∀ x : Int, equationHolds ((roundValues g0 g1 g2 g3).set (maskIndex g4) x) ↔
        number x = (getQuestion g0 g1 g2 g3 g4).1) ∧
      ∃! x : Int, equationHolds ((roundValues g0 g1 g2 g3).set (maskIndex g4) x) := by
  obtain ⟨a, b, c, d, harr, -, -, hc, hd, -⟩ := roundValues_eq g0 g1 g2 g3
  have hm := maskIndex_lt g4
  have hans : (getQuestion g0 g1 g2 g3 g4).1 =
      number ([a, b, c, d, a + b + c * d].getD (maskIndex g4) 0) := by
    simp only [getQuestion, maskAndRender, harr]
  rw [harr, hans]
  refine ⟨fun x => ?_, ?_⟩
  · rw [equationHolds_set_iff a b c d x hc.1 hd.1 _ hm, number_eq_iff]
  · refine ⟨[a, b, c, d, a + b + c * d].getD (maskIndex g4) 0, ?_, ?_⟩
    · exact (equationHolds_set_iff a b c d _ hc.1 hd.1 _ hm).mpr rfl
    · intro y hy
      exact (equationHolds_set_iff a b c d y hc.1 hd.1 _ hm).mp hy

/-! ## The stored name is the simplified name -/

theorem joinSegments_cons_cons (b : Bool) (h h2 : List Char) (t : List (List Char)) :
    joinSegments b (h :: h2 :: t) =
      if b && h.isEmpty then joinSegments true (h2 :: t)
      else h ++ ' ' :: joinSegments true (h2 :: t) := by
  simp [joinSegments]

theorem joinSegments_push (b : Bool) (c : Char) (h : List Char) (t : List (List Char)) :
    joinSegments b ((c :: h) :: t) = c :: joinSegments false (h :: t) := by
  cases t with
  | nil => simp [joinSegments]
  | cons h2 t => simp [joinSegments_cons_cons]

/-- The copying loop of simplified, read off the segments between white space
characters. -/
theorem collapseSpaces_eq_joinSegments (l : List Char) : ∀ b : Bool,
    collapseSpaces b l = joinSegments b (l.splitOnP isSpace) := by
  induction l with
  | nil => intro b; simp [collapseSpaces, List.splitOnP_nil, joinSegments]
  | cons c cs ih =>
    intro b
    rw [List.splitOnP_cons]
    obtain ⟨h, t, hs⟩ : ∃ h t, cs.splitOnP isSpace = h :: t := by
      cases hcs : cs.splitOnP isSpace with
      | nil => exact absurd hcs (List.splitOnP_ne_nil _ _)
      | cons h t => exact ⟨h, t, rfl⟩
    by_cases hc : isSpace c = true
    · simp only [collapseSpaces, hc, if_true]
      rw [hs, joinSegments_cons_cons]
      cases b
      · simp [ih true, hs]
      · simp [ih true, hs]
    · have hc2 : isSpace c = false := by simpa using hc
      simp only [collapseSpaces, hc2, Bool.false_eq_true, if_false]
      rw [hs, List.modifyHead_cons, joinSegments_push, ih false, hs]

theorem splitOnP_no_space (l : List Char) :
    ∀ seg ∈ l.splitOnP isSpace, ∀ c ∈ seg, isSpace c = false := by
  induction l with
  | nil =>
    intro seg hseg c hc
    simp [List.splitOnP_nil] at hseg
    subst hseg
    cases hc
  | cons x xs ih =>
    intro seg hseg c hc
    rw [List.splitOnP_cons] at hseg
    by_cases hx : isSpace x = true
    · simp only [hx, if_true, List.mem_cons] at hseg
      rcases hseg with rfl | hseg
      · cases hc
      · exact ih seg hseg c hc
    · have hx2 : isSpace x = false := by simpa using hx
      simp only [hx2, Bool.false_eq_true, if_false] at hseg
      cases hxs : xs.splitOnP isSpace with
      | nil => rw [hxs] at hseg; simp at hseg
      | cons h t =>
        rw [hxs, List.modifyHead_cons, List.mem_cons] at hseg
        rcases hseg with rfl | hseg
        · rcases List.mem_cons.mp hc with rfl | hc
          · exact hx2
          · exact ih h (by rw [hxs]; exact List.mem_cons_self _ _) c hc
        · exact ih seg (by rw [hxs]; exact List.mem_cons_of_mem _ hseg) c hc

theorem joinWith_cons_cons (sep : Char) (w w2 : List Char) (ws : List (List Char)) :
    joinWith sep (w :: w2 :: ws) = w ++ sep :: joinWith sep (w2 :: ws) := by
  simp [joinWith]

theorem joinWith_ne_nil (sep : Char) (w : List Char) (ws : List (List Char)) (hw : w ≠ []) :
    joinWith sep (w :: ws) ≠ [] := by
  cases ws with
  | nil => simpa [joinWith] using hw
  | cons w2 ws => simp [joinWith_cons_cons]

/-- The last character of space-free, non-empty words joined by spaces is not
white space. -/
theorem joinWith_getLast (ws : List (List Char))
    (h : ∀ w ∈ ws, w ≠ [] ∧ ∀ c ∈ w, isSpace c = false) :
    ∀ c, (joinWith ' ' ws).getLast? = some c → isSpace c = false := by
  induction ws with
  | nil => intro c hc; simp [joinWith] at hc
  | cons w ws ih =>
    intro c hc
    cases ws with
    | nil =>
      simp only [joinWith] at hc
      exact (h w (List.mem_cons_self _ _)).2 c (List.mem_of_getLast?_eq_some hc)
    | cons w2 ws =>
      have hw2 : w2 ≠ [] := (h w2 (List.mem_cons_of_mem _ (List.mem_cons_self _ _))).1
      have hR := joinWith_ne_nil ' ' w2 ws hw2
      rw [joinWith_cons_cons, List.getLast?_append_of_ne_nil _ (List.cons_ne_nil _ _)] at hc
      have hcons : (' ' :: joinWith ' ' (w2 :: ws)) = [' '] ++ joinWith ' ' (w2 :: ws) := rfl
      rw [hcons, List.getLast?_append_of_ne_nil _ hR] at hc
      exact ih (fun v hv => h v (List.mem_cons_of_mem _ hv)) c hc

/-- The copying loop writes the words joined by single spaces, possibly
followed by one more space. -/
theorem joinSegments_eq_joinWith (segs : List (List Char)) :
    joinSegments true segs = joinWith ' ' (segs.filter (fun w => !w.isEmpty)) ∨
      (joinWith ' ' (segs.filter (fun w => !w.isEmpty)) ≠ [] ∧
        joinSegments true segs = joinWith ' ' (segs.filter (fun w => !w.isEmpty)) ++ [' ']) := by
  induction segs with
  | nil => left; rfl
  | cons h t ih =>
    cases t with
    | nil =>
      left
      cases h with
      | nil => rfl
      | cons c h => simp [joinSegments, joinWith]
    | cons h2 t =>
      rw [joinSegments_cons_cons]
      cases h with
      | nil => simpa using ih
      | cons c h =>
        have hf : ((c :: h) :: h2 :: t).filter (fun w => !w.isEmpty) =
            (c :: h) :: (h2 :: t).filter (fun w => !w.isEmpty) := by
          simp [List.filter_cons]
        rw [hf]
        simp only [List.isEmpty_cons, Bool.and_false, Bool.false_eq_true, if_false]
        cases hF : (h2 :: t).filter (fun w => !w.isEmpty) with
        | nil =>
          rw [hF] at ih
          right
          refine ⟨by simp [joinWith], ?_⟩
          rcases ih with ih | ih
          · rw [ih]
            simp [joinWith]
          · exact absurd rfl ih.1
        | cons v vs =>
          rw [hF] at ih
          rw [joinWith_cons_cons]
          rcases ih with ih | ih
          · left
            rw [ih]
          · right
            refine ⟨by simp, ?_⟩
            rw [ih.2]
            simp

/-- The simplified string is its words joined by single spaces. -/
theorem simplifiedChars_eq_joinWith (l : List Char) :
    simplifiedChars l = joinWith ' ' (wordsOf l) := by
  have hwords : ∀ w ∈ wordsOf l, w ≠ [] ∧ ∀ c ∈ w, isSpace c = false := by
    intro w hw
    simp only [wordsOf, List.mem_filter] at hw
    refine ⟨?_, splitOnP_no_space l w hw.1⟩
    intro he
    rw [he] at hw
    simp at hw
  have hlast := joinWith_getLast (wordsOf l) hwords
  unfold simplifiedChars
  simp only
  rw [collapseSpaces_eq_joinSegments]
  rcases joinSegments_eq_joinWith (l.splitOnP isSpace) with h | ⟨-, h⟩
  · rw [h]
    have hno : (joinWith ' ' (wordsOf l)).getLast? ≠ some ' ' := by
      intro hc
      have := hlast ' ' hc
      exact absurd this (by decide)
    unfold wordsOf at hno
    rw [if_neg hno]
    rfl
  · rw [h]
    rw [if_pos (List.getLast?_concat _), List.dropLast_concat]
    rfl

theorem joinWith_map (f : Char → Char) (sep : Char) (ws : List (List Char)) :
    (joinWith sep ws).map f = joinWith (f sep) (ws.map (List.map f)) := by
  induction ws with
  | nil => rfl
  | cons w ws ih =>
    cases ws with
    | nil => simp [joinWith]
    | cons w2 ws =>
      rw [joinWith_cons_cons, List.map_append, List.map_cons, ih]
      simp only [List.map_cons]
      rw [joinWith_cons_cons]

/-- Names with the same words up to letter case have simplified forms that are
equal case-insensitively. -/
theorem equalsCI_simplified_of_words (env : Env) (u1 u2 : String)
    (h : (wordsOf u1.data).map (List.map env.foldCase) =
      (wordsOf u2.data).map (List.map env.foldCase)) :
    equalsCI env (simplified u1) (simplified u2) = true := by
  simp only [equalsCI, simplified, beq_iff_eq]
  rw [simplifiedChars_eq_joinWith, simplifiedChars_eq_joinWith, joinWith_map, joinWith_map, h]

/-- A login under a name that another registered worker holds is answered
with the failure reply and changes nothing. -/
theorem jsonReceived_login_taken (env : Env) (s : ChatServer) (sender : Nat)
    (doc : QJsonObject) (t u : String) (w : Nat) (hname : s.userName sender = "")
    (htype : doc.value "type" = QJsonValue.string t) (hlogin : equalsCI env t "login" = true)
    (huser : doc.value "username" = QJsonValue.string u) (hne : simplified u ≠ "")
    (hw : w ∈ s.m_clients) (hws : w ≠ sender)
    (hcol : equalsCI env (s.userName w) (simplified u) = true) :
    jsonReceived env s sender doc = (s, [(sender, loginFailureMessage)]) := by
  have htaken : nameTaken env s.userName sender (simplified u) s.m_clients = true :=
    (nameTaken_eq_true_iff _ _ _ _ _).mpr ⟨w, hw, hws, hcol⟩
  simp [jsonReceived, hname, jsonFromLoggedOut, htype, huser, QJsonValue.isNull,
    QJsonValue.isString, QJsonValue.toString, hlogin, hne, htaken, sendJson]

/-- A login after which the sender has a userName stored the simplified name,
which is not empty, and changed nothing else. -/
theorem jsonReceived_login_stored (env : Env) (s : ChatServer) (sender : Nat)
    (doc : QJsonObject) (t u : String) (hname : s.userName sender = "")
    (htype : doc.value "type" = QJsonValue.string t) (hlogin : equalsCI env t "login" = true)
    (huser : doc.value "username" = QJsonValue.string u)
    (hacc : (jsonReceived env s sender doc).1.userName sender ≠ "") :
    (jsonReceived env s sender doc).1 =
        { s with userName := Function.update s.userName sender (simplified u) } ∧
      simplified u ≠ "" := by
  have hrun : jsonReceived env s sender doc =
      if simplified u = "" then (s, [])
      else if nameTaken env s.userName sender (simplified u) s.m_clients then
        (s, sendJson sender loginFailureMessage)
      else
        ({ s with userName := Function.update s.userName sender (simplified u) },
          sendJson sender loginSuccessMessage
            ++ broadcast s.m_clients (newUserMessage (simplified u)) (some sender)) := by
    simp [jsonReceived, hname, jsonFromLoggedOut, htype, huser, QJsonValue.isNull,
      QJsonValue.isString, QJsonValue.toString, hlogin]
  rw [hrun] at hacc ⊢
  split_ifs at hacc ⊢ with h1 h2
  · exact absurd hname hacc
  · exact absurd hname hacc
  · exact ⟨rfl, h1⟩

/-- C20: the name stored by a successful login is the submitted name
whitespace-simplified, with its casing as submitted: it is simplified(u1),
which is the words of u1 (its maximal runs of characters that are not white
space) joined by single spaces. The duplicate check is made on that form: when
a registered session has logged in with u1, a login by another session with
a name u2 that has the same words as u1 up to letter case (so differs from u1
only in letter case and in white space) collides with it and is answered
with the failure reply "duplicate username", leaving the server unchanged. -/
theorem login_stores_simplified_name (env : Env) (s : ChatServer) (a b : Nat)
    (doc1 doc2 : QJsonObject) (t1 t2 u1 u2 : String) (ha : a ∈ s.m_clients) (hab : a ≠ b)
    (hna : s.userName a = "") (hnb : s.userName b = "")
    (htype1 : doc1.value "type" = QJsonValue.string t1)
    (hlogin1 : equalsCI env t1 "login" = true)
    (huser1 : doc1.value "username" = QJsonValue.string u1)
    (htype2 : doc2.value "type" = QJsonValue.string t2)
    (hlogin2 : equalsCI env t2 "login" = true)
    (huser2 : doc2.value "username" = QJsonValue.string u2)
    (hacc : (jsonReceived env s a doc1).1.userName a ≠ "")
    (hsame : (wordsOf u1.data).map (List.map env.foldCase) =
      (wordsOf u2.data).map (List.map env.foldCase)) :
    (jsonReceived env s a doc1).1.userName a = simplified u1 ∧
      (simplified u1).data = joinWith ' ' (wordsOf u1.data) ∧
      equalsCI env (simplified u1) (simplified u2) = true ∧
      jsonReceived env (jsonReceived env s a doc1).1 b doc2 =
        ((jsonReceived env s a doc1).1,
          [(b, [("type", QJsonValue.string "login"), ("success", QJsonValue.bool false),
            ("reason", QJsonValue.string "duplicate username")])]) := by
  obtain ⟨hst, hne1⟩ := jsonReceived_login_stored env s a doc1 t1 u1 hna htype1 hlogin1 huser1 hacc
  have hci := equalsCI_simplified_of_words env u1 u2 hsame
  have hne2 : simplified u2 ≠ "" := by
    intro h2
    have hlen := equalsCI_length env _ _ hci
    rw [h2] at hlen
    apply hne1
    rw [string_eq_empty_iff]
    exact List.length_eq_zero.mp (by simpa using hlen)
  have hmsg : loginFailureMessage = [("type", QJsonValue.string "login"),
      ("success", QJsonValue.bool false), ("reason", QJsonValue.string "duplicate username")] := by
    decide
  have hname_a : (jsonReceived env s a doc1).1.userName a = simplified u1 := by
    rw [hst]
    simp
  have hname_b : (jsonReceived env s a doc1).1.userName b = "" := by
    rw [hst]
    simp [Function.update, Ne.symm hab, hnb]
  have hmem : a ∈ (jsonReceived env s a doc1).1.m_clients := by
    rw [hst]
    exact ha
  refine ⟨hname_a, simplifiedChars_eq_joinWith u1.data, hci, ?_⟩
  rw [← hmsg]
  exact jsonReceived_login_taken env _ b doc2 t2 u2 a hname_b htype2 hlogin2 huser2 hne2 hmem hab
    (by rw [hname_a]; exact hci)

/-- Worker 1 logs in as "  Alice   Smith " and is stored as "Alice Smith";
worker 2 then asks for "alice  smith" and is refused. -/
theorem login_stores_simplified_name_witness :
    (1 ∈ twoGuests.m_clients ∧ (1 : Nat) ≠ 2 ∧ twoGuests.userName 1 = "" ∧
        twoGuests.userName 2 = "" ∧
        QJsonObject.value (loginDoc "  Alice   Smith ") "type" = QJsonValue.string "login" ∧
        equalsCI asciiEnv "login" "login" = true ∧
        QJsonObject.value (loginDoc "  Alice   Smith ") "username"
          = QJsonValue.string "  Alice   Smith " ∧
        QJsonObject.value (loginDoc "alice  smith") "type" = QJsonValue.string "login" ∧
        QJsonObject.value (loginDoc "alice  smith") "username"
          = QJsonValue.string "alice  smith" ∧
        (jsonReceived asciiEnv twoGuests 1 (loginDoc "  Alice   Smith ")).1.userName 1 ≠ "" ∧
        (wordsOf "  Alice   Smith ".data).map (List.map asciiEnv.foldCase) =
          (wordsOf "alice  smith".data).map (List.map asciiEnv.foldCase)) ∧
      (jsonReceived asciiEnv twoGuests 1 (loginDoc "  Alice   Smith ")).1.userName 1
        = "Alice Smith" ∧
      (jsonReceived asciiEnv
          (jsonReceived asciiEnv twoGuests 1 (loginDoc "  Alice   Smith ")).1 2
          (loginDoc "alice  smith")).2 =
        [(2, [("type", QJsonValue.string "login"), ("success", QJsonValue.bool false),
          ("reason", QJsonValue.string "duplicate username")])] :=
  ⟨by decide,
    (login_stores_simplified_name asciiEnv twoGuests 1 2 (loginDoc "  Alice   Smith ")
      (loginDoc "alice  smith") "login" "login" "  Alice   Smith " "alice  smith" (by decide)
      (by decide) (by decide) (by decide) (by decide) (by decide) (by decide) (by decide)
      (by decide) (by decide) (by decide) (by decide)).1.trans (by decide),
    congrArg Prod.snd
      (login_stores_simplified_name asciiEnv twoGuests 1 2 (loginDoc "  Alice   Smith ")
        (loginDoc "alice  smith") "login" "login" "  Alice   Smith " "alice  smith" (by decide)
        (by decide) (by decide) (by decide) (by decide) (by decide) (by decide) (by decide)
        (by decide) (by decide) (by decide) (by decide)).2.2.2⟩

end QtSimpleChatServer
